import Mathlib

/-!
# Verification of the dynamic-schema validation and query engine

Shallow embedding of the core of the `dynamicSchema` repository:

* `app/schemas_dynamic.py` — `SchemaDefinition` (with its `fields` validator),
  `DynamicDataValidator.get_pydantic_type`, `create_model_from_schema`,
  `validate_data`;
* `app/routers/dynamic_data.py` — `apply_search_criteria` and the record
  CRUD routes;
* `app/crud.py` — `create_dynamic_data`, `get_dynamic_data`,
  `get_dynamic_data_by_schema`, `soft_delete_dynamic_data`,
  `restore_dynamic_data`;
* `app/routers/dynamic_schema_fields.py` — `migrate_existing_data`.

Python dictionaries are represented as association lists in insertion
order (Python ≥ 3.7 dict semantics); JSON / Python runtime values as the
inductive type `PyValue`.  The repository delegates per-field value
validation to the Pydantic (v1) model produced by `create_model`; those
Pydantic v1 lenient-mode validators are part of the embedding
(`validateAnn` below) since the behaviour of `validate_data` is decided
by them.
-/

/-- A Python runtime value as it can appear in a JSON document handled by
the engine, extended with the `datetime.date` / `datetime.datetime`
objects Pydantic produces when parsing date-typed fields.  Floats are
modelled as rationals: the engine never performs float arithmetic, it
only constructs floats from (small) integer or decimal literals, where
the IEEE value is exact. -/
inductive PyValue where
  | pnone
  | pbool (b : Bool)
  | pint (n : Int)
  | pfloat (q : ℚ)
  | pstr (s : String)
  | pdate (y m d : Nat)
  | pdatetime (y m d hh mi ss : Nat)
  | plist (xs : List PyValue)
  | pdict (xs : List (String × PyValue))
deriving Repr

/-- A Python `dict` with `String` keys, in insertion order. -/
abbrev PyDict := List (String × PyValue)

/-- Python `d[k]` / `k in d` lookup (first binding; Python dicts have
unique keys, so association lists produced by the embedding never hold
duplicates). -/
def dget (d : PyDict) (k : String) : Option PyValue :=
  match d with
  | [] => none
  | (k', v) :: rest => if k' = k then some v else dget rest k

/-- Python `d[k] = v`: overwrite in place when the key exists (keeping
its position), append otherwise. -/
def dset (d : PyDict) (k : String) (v : PyValue) : PyDict :=
  match d with
  | [] => [(k, v)]
  | (k', v') :: rest =>
    if k' = k then (k', v) :: rest else (k', v') :: dset rest k v

/-- Python `del d[k]` (no-op if absent; the source always guards the
deletion with a membership test). -/
def ddel (d : PyDict) (k : String) : PyDict :=
  d.filter (fun p => p.1 ≠ k)

/-!  The string parsers below work on `String.data` (the character
list): the embedding only uses character-list operations, which the
kernel can evaluate on literals. -/

/-- ASCII whitespace, as stripped by Python `int(s)` / `float(s)`. -/
def isSpaceChar (c : Char) : Bool :=
  c = ' ' || c = '\t' || c = '\n' || c = '\r'

/-- Strip leading and trailing whitespace. -/
def trimChars (cs : List Char) : List Char :=
  ((cs.dropWhile isSpaceChar).reverse.dropWhile isSpaceChar).reverse

/-- Digits interpreted in base 10. -/
def digitsVal (cs : List Char) : Nat :=
  cs.foldl (fun acc c => acc * 10 + (c.toNat - 48)) 0

/-- Split at every occurrence of a separator character. -/
def splitOnChar (sep : Char) : List Char → List (List Char)
  | [] => [[]]
  | c :: rest =>
    let r := splitOnChar sep rest
    if c = sep then [] :: r
    else
      match r with
      | h :: t => (c :: h) :: t
      | [] => [[c]]

/-- An optional leading sign, returned as a multiplier. -/
def signSplit (cs : List Char) : Int × List Char :=
  match cs with
  | '-' :: rest => (-1, rest)
  | '+' :: rest => (1, rest)
  | _ => (1, cs)

/-- Python `int(s)` on a string: optional surrounding whitespace,
optional sign, then decimal digits.  (Underscore separators and
non-ASCII digits accepted by CPython are not modelled; no claim
exercises them.) -/
def parseIntPy (s : String) : Option Int :=
  let (sign, body) := signSplit (trimChars s.data)
  if body ≠ [] ∧ body.all Char.isDigit then
    some (sign * (digitsVal body : Int))
  else none

/-- Python `float(s)` on a string: optional sign, decimal digits with at
most one point, at least one digit overall.  (Exponent notation and
`inf`/`nan` are not modelled; no claim exercises them.) -/
def parseFloatPy (s : String) : Option ℚ :=
  let (sign, body) := signSplit (trimChars s.data)
  match splitOnChar '.' body with
  | [intPart] =>
    if intPart ≠ [] ∧ intPart.all Char.isDigit then
      some ((sign : ℚ) * (digitsVal intPart : ℚ))
    else none
  | [intPart, fracPart] =>
    if (intPart ≠ [] ∨ fracPart ≠ []) ∧
        intPart.all Char.isDigit ∧ fracPart.all Char.isDigit then
      some ((sign : ℚ) * ((digitsVal intPart : ℚ) +
        (digitsVal fracPart : ℚ) / ((10 : ℚ) ^ fracPart.length)))
    else none
  | _ => none

/-- A block of exactly `n` decimal digits. -/
def isDigits (cs : List Char) (n : Nat) : Bool :=
  cs.length = n && cs.all Char.isDigit

/-- Pydantic v1 ISO-date parsing `YYYY-MM-DD` (the unix-timestamp input
form pydantic also accepts is not modelled; no claim exercises it). -/
def parseDatePy (s : String) : Option (Nat × Nat × Nat) :=
  match splitOnChar '-' s.data with
  | [y, m, d] =>
    if isDigits y 4 && isDigits m 2 && isDigits d 2 &&
        decide (1 ≤ digitsVal m) && decide (digitsVal m ≤ 12) &&
        decide (1 ≤ digitsVal d) && decide (digitsVal d ≤ 31) then
      some (digitsVal y, digitsVal m, digitsVal d)
    else none
  | _ => none

/-- Pydantic v1 ISO-datetime parsing `YYYY-MM-DDTHH:MM:SS` (fractional
seconds, timezone suffixes and timestamp inputs are not modelled; no
claim exercises them). -/
def parseDatetimePy (s : String) : Option (Nat × Nat × Nat × Nat × Nat × Nat) :=
  match splitOnChar 'T' s.data with
  | [ds, ts] =>
    match parseDatePy ds.asString, splitOnChar ':' ts with
    | some (y, m, d), [hh, mi, ss] =>
      if isDigits hh 2 && isDigits mi 2 && isDigits ss 2 &&
          decide (digitsVal hh ≤ 23) && decide (digitsVal mi ≤ 59) &&
          decide (digitsVal ss ≤ 59) then
        some (y, m, d, digitsVal hh, digitsVal mi, digitsVal ss)
      else none
    | _, _ => none
  | _ => none

/-- One entry of `SchemaDefinition.fields` (`app/schemas_dynamic.py`).
The source keeps each field definition as a raw `Dict[str, Any]`; only
the keys the engine reads are modelled: `type`, `required`
(`field_def.get('required', False)`), `default` (presence of the key
matters: `field_def.get('default', ... if is_required else None)`),
`items` (presence, and its optional inner `type` key:
`field_def['items'].get('type', 'string')`) and `properties` (presence
only — the validator never reads its content).  The `description` key is
metadata passed to `Field(description=...)` with no behavioural effect
and is omitted. -/
structure FieldDef where
  type : String
  required : Bool := false
  default : Option PyValue := none
  items : Option (Option String) := none
  hasProperties : Bool := false
deriving Repr

/-- `SchemaDefinition` (`app/schemas_dynamic.py`): `name`, optional
`description`, and `fields` as a name → definition dict. -/
structure SchemaDefn where
  name : String
  description : Option String := none
  fields : List (String × FieldDef)
deriving Repr

/-- The closed type set of `SchemaDefinition.validate_field_definitions`. -/
def validTypes : List String :=
  ["string", "number", "integer", "boolean", "array", "object", "date", "datetime"]

/-- One field's check inside `SchemaDefinition.validate_field_definitions`:
`type` must be in the closed set, `array` needs an `items` key, `object`
needs a `properties` key.  (The `'type' not in field_def` failure is
unrepresentable here because `FieldDef.type` is total; every claim
quantifies over definitions that carry a type.) -/
def validFieldDef (fd : FieldDef) : Bool :=
  (validTypes.contains fd.type) &&
  (fd.type ≠ "array" || fd.items.isSome) &&
  (fd.type ≠ "object" || fd.hasProperties)

/-- `SchemaDefinition.validate_field_definitions`: every field definition
passes `validFieldDef`.  Pydantic runs this validator when the
`SchemaDefinition` object is constructed, so every `SchemaDefn` reaching
`validate_data` in the source satisfies it. -/
def validSchema (S : SchemaDefn) : Bool :=
  S.fields.all (fun p => validFieldDef p.2)

/-! ## The runtime model built by `create_model_from_schema`

`DynamicDataValidator.get_pydantic_type` maps type names to Python
objects.  Because `schemas_dynamic.py` does `from datetime import
datetime`, the entry `'date': datetime.date` resolves to the *method*
`datetime.date` of the `datetime` class, not to the `date` class; that
method object is not a type, and Pydantic's `find_validators` raises
`RuntimeError` while building any model field annotated with it.  The
annotation grammar `PyAnn` records this object as `pyDateMethod`. -/

/-- A Python annotation as assembled by `create_model_from_schema`. -/
inductive PyAnn where
  | pyStr
  | pyFloat
  | pyInt
  | pyBool
  | pyDateMethod
  | pyDatetime
  | pyListOf (t : PyAnn)
  | pyBareList
  | pyDictStrAny
  | pyAny
  | pyOptional (t : PyAnn)
deriving DecidableEq, Repr

/-- `DynamicDataValidator.get_pydantic_type`: the `type_mapping` dict,
with `Any` as the `.get` fallback. -/
def get_pydantic_type (field_type : String) : PyAnn :=
  if field_type = "string" then .pyStr
  else if field_type = "number" then .pyFloat
  else if field_type = "integer" then .pyInt
  else if field_type = "boolean" then .pyBool
  else if field_type = "date" then .pyDateMethod
  else if field_type = "datetime" then .pyDatetime
  else if field_type = "array" then .pyBareList
  else if field_type = "object" then .pyDictStrAny
  else .pyAny

/-- One entry of the `field_definitions` dict handed to `create_model`:
the annotation and the `Field(default=...)` value, where `dflt = none`
models the Ellipsis (`...`) marker making the field required. -/
structure ModelField where
  ann : PyAnn
  dflt : Option PyValue
deriving Repr

/-- `default = field_def.get('default', ... if is_required else None)`:
the declared default if the key is present, otherwise Ellipsis (`none`)
for required fields and Python `None` for optional ones. -/
def fieldDefault (fd : FieldDef) : Option PyValue :=
  match fd.default with
  | some v => some v
  | none => if fd.required then none else some .pnone

/-- The primitive branch test of `create_model_from_schema`. -/
def primitiveTypes : List String :=
  ["string", "number", "integer", "boolean", "date", "datetime"]

/-- The loop body of `create_model_from_schema` for one field: `some`
with the `(annotation, Field(...))` pair when a branch matches, `none`
when the field's type matches no branch (the field is silently skipped),
`Except.error` for the `field_def['items']` `KeyError` on an array field
without `items`. -/
def buildField (fd : FieldDef) : Option (Except String ModelField) :=
  if primitiveTypes.contains fd.type then
    some (.ok { ann := if fd.required then get_pydantic_type fd.type
                       else .pyOptional (get_pydantic_type fd.type),
                dflt := fieldDefault fd })
  else if fd.type = "array" then
    match fd.items with
    | none => some (.error "KeyError: 'items'")
    | some it =>
      some (.ok { ann := if fd.required then .pyListOf (get_pydantic_type (it.getD "string"))
                         else .pyOptional (.pyListOf (get_pydantic_type (it.getD "string"))),
                  dflt := fieldDefault fd })
  else if fd.type = "object" then
    some (.ok { ann := if fd.required then .pyDictStrAny
                       else .pyOptional .pyDictStrAny,
                dflt := fieldDefault fd })
  else none

/-- The `for field_name, field_def in schema_def.fields.items()` loop of
`create_model_from_schema`, accumulating `field_definitions` in schema
order and propagating the first exception. -/
def buildEntries : List (String × FieldDef) → Except String (List (String × ModelField))
  | [] => .ok []
  | (f, fd) :: rest =>
    match buildField fd with
    | none => buildEntries rest
    | some (.error e) => .error e
    | some (.ok mf) => do
      let tl ← buildEntries rest
      .ok ((f, mf) :: tl)

/-- Whether an annotation is one Pydantic can build a validator for:
`pyDateMethod` (the `datetime.date` method object) is not a class, so
`find_validators`' `issubclass` check raises `RuntimeError`. -/
def annOk : PyAnn → Bool
  | .pyDateMethod => false
  | .pyListOf t => annOk t
  | .pyOptional t => annOk t
  | _ => true

/-- The `create_model(...)` call: Pydantic materialises a `ModelField`
per entry, in order, raising `RuntimeError` at the first annotation that
is not a type. -/
def checkAnnotations : List (String × ModelField) → Except String (List (String × ModelField))
  | [] => .ok []
  | (f, mf) :: rest =>
    if annOk mf.ann then do
      let tl ← checkAnnotations rest
      .ok ((f, mf) :: tl)
    else .error ("RuntimeError: error checking inheritance of datetime.date (field " ++ f ++ ")")

/-- `DynamicDataValidator.create_model_from_schema`: build the
`field_definitions` dict, then materialise the dynamic Pydantic model. -/
def create_model_from_schema (S : SchemaDefn) : Except String (List (String × ModelField)) := do
  let entries ← buildEntries S.fields
  checkAnnotations entries

/-- Truncation toward zero, as Python `int(float)`. -/
def ratTruncInt (q : ℚ) : Int :=
  q.num.tdiv (q.den : Int)

/-- Pydantic v1 `bool_validator` string forms (lower-cased membership in
`BOOL_TRUE` / `BOOL_FALSE`). -/
def pyBoolOfStr (s : String) : Option Bool :=
  let t := (s.data.map Char.toLower).asString
  if ["on", "t", "true", "y", "yes", "1"].contains t then some true
  else if ["off", "f", "false", "n", "no", "0"].contains t then some false
  else none

/-- Element-wise validation of a Python list, propagating the first
element error (the elementwise loop of Pydantic's `List[T]` validator). -/
def exceptMapList (f : PyValue → Except String PyValue) :
    List PyValue → Except String (List PyValue)
  | [] => .ok []
  | x :: xs => do
    let y ← f x
    let ys ← exceptMapList f xs
    .ok (y :: ys)

/-- The Pydantic v1 lenient-mode validator for one annotation applied to
one supplied value — the semantics `create_model`'s generated model gives
each field.  Coercions modelled, following pydantic v1 `validators.py`:

* `str`: accepts `str`; coerces `int` and `bool` via Python `str()`
  (`bool` is an `int` instance).  The `float`-to-`str` coercion (which
  would need IEEE `repr`) is not modelled and errors here; no claim
  exercises it.
* `int`: Python `int(v)` — accepts `int`, `bool` (`True → 1`), `float`
  (truncation toward zero), and numeric strings.
* `float`: Python `float(v)` — accepts `float`, `int`, `bool`, and
  decimal strings.
* `bool`: accepts `bool`, the ints/floats equal to `0`/`1`, and the
  `BOOL_TRUE`/`BOOL_FALSE` strings.
* `datetime`: accepts `datetime` objects and ISO strings (numeric
  timestamps not modelled; no claim exercises them).
* bare `List` / `Dict[str, Any]`: shape check only.
* `List[T]`: element-wise validation.
* `Optional[T]`: `None` passes, otherwise the inner validator runs.

Pydantic collects the errors of all fields into one `ValidationError`;
the embedding keeps the first failing field's message — every claim
depends only on the success/failure split, not on message text. -/
def validateAnn : PyAnn → PyValue → Except String PyValue
  | .pyOptional t => fun v =>
    match v with
    | .pnone => .ok .pnone
    | v => validateAnn t v
  | .pyStr => fun v =>
    match v with
    | .pstr s => .ok (.pstr s)
    | .pint n => .ok (.pstr (toString n))
    | .pbool b => .ok (.pstr (if b then "True" else "False"))
    | .pfloat _ => .error "float-to-str coercion not modelled"
    | _ => .error "str type expected"
  | .pyInt => fun v =>
    match v with
    | .pint n => .ok (.pint n)
    | .pbool b => .ok (.pint (if b then 1 else 0))
    | .pfloat q => .ok (.pint (ratTruncInt q))
    | .pstr s =>
      match parseIntPy s with
      | some n => .ok (.pint n)
      | none => .error "value is not a valid integer"
    | _ => .error "value is not a valid integer"
  | .pyFloat => fun v =>
    match v with
    | .pfloat q => .ok (.pfloat q)
    | .pint n => .ok (.pfloat (n : ℚ))
    | .pbool b => .ok (.pfloat (if b then 1 else 0))
    | .pstr s =>
      match parseFloatPy s with
      | some q => .ok (.pfloat q)
      | none => .error "value is not a valid float"
    | _ => .error "value is not a valid float"
  | .pyBool => fun v =>
    match v with
    | .pbool b => .ok (.pbool b)
    | .pint n =>
      if n = 1 then .ok (.pbool true)
      else if n = 0 then .ok (.pbool false)
      else .error "value could not be parsed to a boolean"
    | .pfloat q =>
      if q = 1 then .ok (.pbool true)
      else if q = 0 then .ok (.pbool false)
      else .error "value could not be parsed to a boolean"
    | .pstr s =>
      match pyBoolOfStr s with
      | some b => .ok (.pbool b)
      | none => .error "value could not be parsed to a boolean"
    | _ => .error "value could not be parsed to a boolean"
  | .pyDatetime => fun v =>
    match v with
    | .pdatetime y m d hh mi ss => .ok (.pdatetime y m d hh mi ss)
    | .pstr s =>
      match parseDatetimePy s with
      | some (y, m, d, hh, mi, ss) => .ok (.pdatetime y m d hh mi ss)
      | none => .error "invalid datetime format"
    | _ => .error "invalid datetime format"
  | .pyDateMethod => fun _ => .error "RuntimeError: datetime.date is not a type"
  | .pyBareList => fun v =>
    match v with
    | .plist xs => .ok (.plist xs)
    | _ => .error "value is not a valid list"
  | .pyDictStrAny => fun v =>
    match v with
    | .pdict xs => .ok (.pdict xs)
    | _ => .error "value is not a valid dict"
  | .pyAny => fun v => .ok v
  | .pyListOf t => fun v =>
    match v with
    | .plist xs => do
      let ys ← exceptMapList (fun x => validateAnn t x) xs
      .ok (.plist ys)
    | _ => .error "value is not a valid list"

/-- Running the generated model on the keyword arguments
`model_class(**data)`: each model field, in declaration order, either
validates its supplied value, falls back to its default (which Pydantic
v1 does **not** validate), or — when required and absent — fails.  Keys
of `data` that name no model field are ignored (Pydantic v1 default
`Extra.ignore`), and `.dict()` then returns every model field. -/
def validateModel : List (String × ModelField) → PyDict → Except String PyDict
  | [], _ => .ok []
  | (f, mf) :: rest, data =>
    match dget data f with
    | some v => do
      let w ← validateAnn mf.ann v
      let tl ← validateModel rest data
      .ok ((f, w) :: tl)
    | none =>
      match mf.dflt with
      | some d => do
        let tl ← validateModel rest data
        .ok ((f, d) :: tl)
      | none => .error ("field required: " ++ f)

/-- Outcome of `DynamicDataValidator.validate_data`: a validated
document, a `ValueError` (the caught `ValidationError`, re-raised with
the `Data validation failed:` prefix), or a non-`ValidationError`
exception escaping the `try` (the `RuntimeError` from model creation). -/
inductive VResult where
  | ok (doc : PyDict)
  | valueError (msg : String)
  | crash (msg : String)
deriving Repr

/-- Whether the outcome is a validated document. -/
def VResult.isOk : VResult → Bool
  | .ok _ => true
  | _ => false

/-- Whether the outcome is the caught-and-re-raised `ValueError`. -/
def VResult.isValueError : VResult → Bool
  | .valueError _ => true
  | _ => false

/-- `DynamicDataValidator.validate_data`. -/
def validate_data (S : SchemaDefn) (data : PyDict) : VResult :=
  match create_model_from_schema S with
  | .error e => .crash e
  | .ok M =>
    match validateModel M data with
    | .error msg => .valueError ("Data validation failed: " ++ msg)
    | .ok doc => .ok doc

/-! ## Predicate evaluator (`apply_search_criteria`, `app/routers/dynamic_data.py`)

The evaluator receives a SQLAlchemy query (a row set) and a criteria
tree.  A node is classified by the first test that matches in the
source: an `"and"` key, then an `"or"` key, then the leaf shape
(`field_path` / `operator` / `value`, each possibly missing); the
`SearchCriteria` type represents each node by the first shape that
applies.  Inside the `"or"` branch the source evaluates
`db.query(models.DynamicData.id)` — but `db` is not a name in scope in
`apply_search_criteria` (it is a parameter of the route handlers only),
so the first iteration of the branch raises `NameError`. -/

/-- A stored record (`models.DynamicData`): `id`, `schema_id`, JSON
`data`, and the soft-delete flag (the model does declare `is_deleted`,
so every `hasattr(models.DynamicData, 'is_deleted')` probe in the source
is true).  The `created_at`/`updated_at` timestamps are
storage-maintained metadata no claim reads and are omitted. -/
structure DataRecord where
  id : Nat
  schema_id : Nat
  data : PyDict
  is_deleted : Bool := false
deriving Repr

/-- The cast applied to the extracted JSON field, chosen by the runtime
type of the supplied `value`.  Python's `isinstance(value, int)` is
tested first and is true for `bool` values too, so the
`isinstance(value, bool)` branch is dead code and booleans are cast as
integers. -/
inductive CastKind where
  | kInt
  | kFloat
  | kStr
deriving DecidableEq, Repr

/-- The `isinstance` cascade choosing the cast. -/
def castKindOf : PyValue → CastKind
  | .pint _ => .kInt
  | .pbool _ => .kInt
  | .pfloat _ => .kFloat
  | _ => .kStr

/-- The comparison value as an integer (only invoked when `castKindOf`
returned `kInt`, i.e. for `int` and `bool` values). -/
def valueAsInt : PyValue → Int
  | .pint n => n
  | .pbool b => if b then 1 else 0
  | _ => 0

/-- SQLite-style `CAST(x AS INTEGER)` of an extracted JSON field: `NULL`
stays `NULL` (`none`), numeric text parses, non-numeric text casts to
`0`.  The comparison itself happens inside the storage engine; this is a
documented approximation of that engine's cast — no claim's statement
depends on the outcome of an individual comparison. -/
def castToInt : PyValue → Option Int
  | .pnone => none
  | .pint n => some n
  | .pbool b => some (if b then 1 else 0)
  | .pfloat q => some (ratTruncInt q)
  | .pstr s => some ((parseIntPy s).getD 0)
  | _ => some 0

/-- SQLite-style `CAST(x AS FLOAT)` of an extracted JSON field. -/
def castToFloat : PyValue → Option ℚ
  | .pnone => none
  | .pint n => some (n : ℚ)
  | .pbool b => some (if b then 1 else 0)
  | .pfloat q => some q
  | .pstr s => some ((parseFloatPy s).getD 0)
  | _ => some 0

/-- String form of an extracted JSON field under `CAST(x AS VARCHAR)`:
text stays itself, integers print decimally; the remaining shapes
(floats, booleans, compounds, `NULL`) are left unmodelled (`none`, which
makes every comparison on them false) — no claim depends on them. -/
def castToStr : PyValue → Option String
  | .pstr s => some s
  | .pint n => some (toString n)
  | _ => none

/-- Numeric comparison dispatch for the six comparison operators; the
three string operators on an integer/float-cast column are left
unmodelled (false) — no claim depends on them. -/
def intCompare (op : String) (a b : Int) : Bool :=
  if op = "eq" then a = b
  else if op = "ne" then a ≠ b
  else if op = "gt" then a > b
  else if op = "gte" then a ≥ b
  else if op = "lt" then a < b
  else if op = "lte" then a ≤ b
  else false

/-- As `intCompare`, over rationals. -/
def ratCompare (op : String) (a b : ℚ) : Bool :=
  if op = "eq" then a = b
  else if op = "ne" then a ≠ b
  else if op = "gt" then a > b
  else if op = "gte" then a ≥ b
  else if op = "lt" then a < b
  else if op = "lte" then a ≤ b
  else false

/-- Substring test (`LIKE '%b%'`). -/
def strContainsSub (a b : String) : Bool :=
  (List.range (a.data.length + 1)).any (fun i => b.data.isPrefixOf (a.data.drop i))

/-- String comparison dispatch: equality, binary-collation order, and
the `contains`/`startswith`/`endswith` LIKE patterns. -/
def strCompare (op : String) (a b : String) : Bool :=
  if op = "eq" then a = b
  else if op = "ne" then a ≠ b
  else if op = "gt" then b < a
  else if op = "gte" then ¬ a < b
  else if op = "lt" then a < b
  else if op = "lte" then ¬ b < a
  else if op = "contains" then strContainsSub a b
  else if op = "startswith" then b.data.isPrefixOf a.data
  else if op = "endswith" then b.data.isSuffixOf a.data
  else false

/-- One leaf condition applied to one record: extract
`models.DynamicData.data[field_path]` (plain key access — only the
separate nested-field endpoint splits dotted paths), cast per the
value's runtime type, compare.  A record whose data lacks the key yields
SQL `NULL`, which no comparison matches. -/
def leafMatch (field_path operator : String) (value : PyValue) (r : DataRecord) : Bool :=
  match dget r.data field_path with
  | none => false
  | some x =>
    match castKindOf value with
    | .kInt =>
      match castToInt x with
      | some a => intCompare operator a (valueAsInt value)
      | none => false
    | .kFloat =>
      match castToFloat x with
      | some a =>
        match value with
        | .pfloat q => ratCompare operator a q
        | _ => false
      | none => false
    | .kStr =>
      match castToStr x, castToStr value with
      | some a, some b => strCompare operator a b
      | _, _ => false

/-- The operator whitelist of the `if operator ==` chain. -/
def searchOperators : List String :=
  ["eq", "ne", "gt", "gte", "lt", "lte", "contains", "startswith", "endswith"]

/-- A search-criteria node (see the section comment): composite `and` /
`or` nodes, or a leaf whose three keys may each be missing. -/
inductive SearchCriteria where
  | scAnd (subs : List SearchCriteria)
  | scOr (subs : List SearchCriteria)
  | scLeaf (field_path : Option String) (operator : Option String) (value : Option PyValue)

mutual
/-- `apply_search_criteria(query, criteria)`.  The `and` branch refines
the query through each sub-criterion in turn.  The `or` branch
evaluates `db.query(...)` inside its loop with `db` unbound, so any
non-empty `or` list raises `NameError` (modelled as `Except.error`); an
empty `or` list builds `query.filter(or_())`, the empty disjunction,
which matches nothing.  A leaf with all three keys and a whitelisted
operator filters; any other node falls through to `return query`. -/
def apply_search_criteria (query : List DataRecord) : SearchCriteria → Except String (List DataRecord)
  | .scAnd subs => applyAndList query subs
  | .scOr [] => .ok (query.filter (fun _ => false))
  | .scOr (_ :: _) => .error "NameError: name 'db' is not defined"
  | .scLeaf (some fp) (some op) (some v) =>
    if searchOperators.contains op then .ok (query.filter (leafMatch fp op v))
    else .ok query
  | .scLeaf _ _ _ => .ok query

/-- The `for sub_criteria in criteria["and"]` loop. -/
def applyAndList (query : List DataRecord) : List SearchCriteria → Except String (List DataRecord)
  | [] => .ok query
  | c :: rest => do
    let q ← apply_search_criteria query c
    applyAndList q rest
end

/-! ## Record store (`app/crud.py`) -/

/-- `crud.get_dynamic_data`: filter by id, then (since
`models.DynamicData` has the `is_deleted` column) drop soft-deleted rows
unless `include_deleted`, and take the first row. -/
def get_dynamic_data (db : List DataRecord) (data_id : Nat)
    (include_deleted : Bool := false) : Option DataRecord :=
  ((db.filter (fun r => r.id = data_id)).filter
    (fun r => include_deleted || !r.is_deleted)).head?

/-- `crud.get_dynamic_data_by_schema`: filter by schema id and
soft-delete flag, then apply `offset`/`limit`. -/
def get_dynamic_data_by_schema (db : List DataRecord) (schema_id : Nat)
    (skip : Nat := 0) (limit : Nat := 100) (include_deleted : Bool := false) :
    List DataRecord :=
  (((db.filter (fun r => r.schema_id = schema_id)).filter
    (fun r => include_deleted || !r.is_deleted)).drop skip).take limit

/-- `crud.soft_delete_dynamic_data`: look the record up including
deleted ones; `models.DynamicData` has `is_deleted`, so the soft branch
sets the flag (the hard-delete fallback is dead code).  Returns the
mutated record (or `none`) together with the store after commit. -/
def soft_delete_dynamic_data (db : List DataRecord) (data_id : Nat) :
    Option DataRecord × List DataRecord :=
  match get_dynamic_data db data_id true with
  | none => (none, db)
  | some r =>
    (some { r with is_deleted := true },
     db.map (fun x => if x.id = data_id then { x with is_deleted := true } else x))

/-- `crud.restore_dynamic_data`: only a currently-soft-deleted record is
changed; otherwise the fetched record (or `none`) is returned as-is. -/
def restore_dynamic_data (db : List DataRecord) (data_id : Nat) :
    Option DataRecord × List DataRecord :=
  match get_dynamic_data db data_id true with
  | none => (none, db)
  | some r =>
    if r.is_deleted then
      (some { r with is_deleted := false },
       db.map (fun x => if x.id = data_id then { x with is_deleted := false } else x))
    else (some r, db)

/-! ## Schema store, record creation and its HTTP mapping -/

/-- A persisted schema (`models.DynamicSchema`), with its JSON
`schema_definition` decoded to `SchemaDefn`. -/
structure StoredSchema where
  id : Nat
  name : String
  schema_definition : SchemaDefn

/-- `crud.get_dynamic_schema`. -/
def get_dynamic_schema (sdb : List StoredSchema) (schema_id : Nat) : Option StoredSchema :=
  (sdb.filter (fun s => s.id = schema_id)).head?

/-- A Python exception escaping a crud function: `ValueError` (which
Pydantic's `ValidationError` subclasses) or anything else. -/
inductive PyErr where
  | valueError (msg : String)
  | otherExc (msg : String)
deriving Repr

/-- `crud.create_dynamic_data`: fetch the schema — a missing schema id
raises `ValueError`, the same exception class a validation failure
raises —, rebuild `SchemaDefinition(**schema.schema_definition)` (whose
fields validator re-runs; its `ValidationError` is a `ValueError`),
validate the payload, then insert.  `newId` stands for the
storage-assigned primary key. -/
def crud_create_dynamic_data (sdb : List StoredSchema) (db : List DataRecord)
    (newId : Nat) (schema_id : Nat) (data : PyDict) :
    Except PyErr (DataRecord × List DataRecord) :=
  match get_dynamic_schema sdb schema_id with
  | none => .error (.valueError ("Schema with id " ++ toString schema_id ++ " not found"))
  | some schema =>
    if validSchema schema.schema_definition then
      match validate_data schema.schema_definition data with
      | .ok v =>
        let dbData : DataRecord := { id := newId, schema_id := schema_id, data := v }
        .ok (dbData, db ++ [dbData])
      | .valueError m => .error (.valueError m)
      | .crash m => .error (.otherExc m)
    else .error (.valueError "SchemaDefinition validation failed")

/-- An HTTP error response (status code and detail). -/
structure HttpError where
  status : Nat
  detail : String
deriving DecidableEq, Repr

/-- `POST /dynamic-data/` (`create_dynamic_data_generic`): every
`ValueError` from the crud layer — missing schema *and* validation
failure alike — becomes `HTTPException(status_code=400)`; any other
exception reaches the generic handler (500). -/
def create_dynamic_data_route (sdb : List StoredSchema) (db : List DataRecord)
    (newId : Nat) (schema_id : Nat) (data : PyDict) :
    Except HttpError (DataRecord × List DataRecord) :=
  match crud_create_dynamic_data sdb db newId schema_id data with
  | .ok x => .ok x
  | .error (.valueError m) => .error ⟨400, m⟩
  | .error (.otherExc _) => .error ⟨500, "Internal server error"⟩

/-- `GET /dynamic-data/{data_id}`: a missing (or soft-deleted) record is
a 404. -/
def get_dynamic_data_route (db : List DataRecord) (data_id : Nat) :
    Except HttpError DataRecord :=
  match get_dynamic_data db data_id false with
  | none => .error ⟨404, "Data not found"⟩
  | some r => .ok r

/-! ## Data migration (`migrate_existing_data`, `app/routers/dynamic_schema_fields.py`) -/

/-- The `migration_config` body, after the three `.get(..., default)`
reads. -/
structure MigrationConfig where
  field_mappings : List (String × String) := []
  default_values : PyDict := []
  remove_fields : List String := []

/-- The `for old_field, new_field in field_mappings.items()` loop:
copy under the new name (overwriting), then drop the old key only when
the name actually changed. -/
def applyFieldMappings (data : PyDict) : List (String × String) → PyDict
  | [] => data
  | (old, new) :: rest =>
    let d :=
      match dget data old with
      | some v =>
        let d1 := dset data new v
        if old ≠ new then ddel d1 old else d1
      | none => data
    applyFieldMappings d rest

/-- The `default_values` loop: fill only where the key is absent. -/
def applyDefaultValues (data : PyDict) : PyDict → PyDict
  | [] => data
  | (f, v) :: rest =>
    applyDefaultValues (match dget data f with
      | some _ => data
      | none => dset data f v) rest

/-- The `remove_fields` loop: drop present keys. -/
def applyRemoveFields (data : PyDict) : List String → PyDict
  | [] => data
  | f :: rest =>
    applyRemoveFields (match dget data f with
      | some _ => ddel data f
      | none => data) rest

/-- One iteration body of the migration loop: transform the record's
data, then validate against the current schema.  The surrounding
`except Exception` catches both the re-raised `ValueError` and any
other exception (e.g. the `RuntimeError` of date-typed fields), so every
non-success becomes a per-record error entry. -/
def migrateRecord (sd : SchemaDefn) (cfg : MigrationConfig) (item : DataRecord) :
    Except String PyDict :=
  let d := applyRemoveFields
    (applyDefaultValues (applyFieldMappings item.data cfg.field_mappings)
      cfg.default_values) cfg.remove_fields
  match validate_data sd d with
  | .ok v => .ok v
  | .valueError m => .error m
  | .crash m => .error m

/-- The `results` accumulator of `migrate_existing_data`. -/
structure MigrationResults where
  total : Nat
  migrated : Nat
  failed : Nat
  errors : List (Nat × String)
deriving Repr

/-- The `for item in data_items` loop: on success the record's data is
replaced and `migrated` incremented; on failure `failed` is incremented
and one `{id, error}` entry appended — the loop always continues. -/
def migrateLoop (sd : SchemaDefn) (cfg : MigrationConfig) :
    List DataRecord → MigrationResults → MigrationResults × List DataRecord
  | [], acc => (acc, [])
  | it :: rest, acc =>
    match migrateRecord sd cfg it with
    | .ok v =>
      let (res, tl) := migrateLoop sd cfg rest { acc with migrated := acc.migrated + 1 }
      (res, { it with data := v } :: tl)
    | .error e =>
      let (res, tl) := migrateLoop sd cfg rest
        { acc with failed := acc.failed + 1, errors := acc.errors ++ [(it.id, e)] }
      (res, it :: tl)

/-- `POST /schema-fields/{schema_id}/migrate-data`: fetch the schema
(404 when absent), fetch the records including soft-deleted ones (with
the default `skip=0, limit=100` of `get_dynamic_data_by_schema`), then
run the loop starting from `total = len(data_items)`.  An invalid stored
schema definition would raise `ValidationError` out of the handler
(422 via the app-level handler). -/
def migrate_existing_data (sdb : List StoredSchema) (db : List DataRecord)
    (schema_id : Nat) (cfg : MigrationConfig) :
    Except HttpError (MigrationResults × List DataRecord) :=
  match get_dynamic_schema sdb schema_id with
  | none => .error ⟨404, "Schema not found"⟩
  | some schema =>
    if validSchema schema.schema_definition then
      let data_items := get_dynamic_data_by_schema db schema_id 0 100 true
      .ok (migrateLoop schema.schema_definition cfg data_items
        { total := data_items.length, migrated := 0, failed := 0, errors := [] })
    else .error ⟨422, "Validation error"⟩

/-! ## Typing predicates used to state the claims -/

/-- A value already *of* the declared runtime kind (the claims' notion of
"correctly-typed"): exact shape match, elementwise for typed lists,
`None`-or-match under `Optional`. -/
def valueMatchesAnn : PyAnn → PyValue → Bool
  | .pyStr => fun v => match v with | .pstr _ => true | _ => false
  | .pyInt => fun v => match v with | .pint _ => true | _ => false
  | .pyFloat => fun v => match v with | .pfloat _ => true | _ => false
  | .pyBool => fun v => match v with | .pbool _ => true | _ => false
  | .pyDatetime => fun v => match v with | .pdatetime _ _ _ _ _ _ => true | _ => false
  | .pyDateMethod => fun _ => false
  | .pyBareList => fun v => match v with | .plist _ => true | _ => false
  | .pyDictStrAny => fun v => match v with | .pdict _ => true | _ => false
  | .pyAny => fun _ => true
  | .pyListOf t => fun v =>
    match v with
    | .plist xs => xs.all (fun x => valueMatchesAnn t x)
    | _ => false
  | .pyOptional t => fun v =>
    match v with
    | .pnone => true
    | v => valueMatchesAnn t v

/-- "Correctly-typed for the field": the value matches the annotation
`create_model_from_schema` derives for this field definition. -/
def wellTypedField (fd : FieldDef) (v : PyValue) : Bool :=
  match buildField fd with
  | some (.ok mf) => valueMatchesAnn mf.ann v
  | _ => false

/-- The claim hypothesis "D supplies every required field of S with a
correctly-typed value" (and says nothing of other keys). -/
def suppliesRequired (S : SchemaDefn) (D : PyDict) : Bool :=
  S.fields.all (fun p =>
    !p.2.required ||
      (match dget D p.1 with
       | some v => wellTypedField p.2 v
       | none => false))

/-- The strengthened hypothesis: every *declared* field that D supplies
carries a correctly-typed value (required or not). -/
def declaredSuppliedWellTyped (S : SchemaDefn) (D : PyDict) : Bool :=
  S.fields.all (fun p =>
    match dget D p.1 with
    | some v => wellTypedField p.2 v
    | none => true)

/-- Whether an `Except` carries a value. -/
def excOk {α : Type} : Except String α → Bool
  | .ok _ => true
  | .error _ => false

/-! ## Generic helper lemmas -/

/-- Reduction of `Except` bind on a success value. -/
theorem exceptBind_ok {α β : Type} (a : α) (f : α → Except String β) :
    (Except.ok a : Except String α) >>= f = f a := rfl

/-- Reduction of `Except` bind on an error value. -/
theorem exceptBind_error {α β : Type} (e : String) (f : α → Except String β) :
    (Except.error e : Except String α) >>= f = Except.error e := rfl

/-! ## Concrete sample inputs used to instantiate the theorems -/

/-- A schema with one required integer field. -/
def intFieldSchema : SchemaDefn :=
  { name := "IntDoc", fields := [("n", { type := "integer", required := true })] }

/-- A schema with one required number (float) field. -/
def numberFieldSchema : SchemaDefn :=
  { name := "NumDoc", fields := [("x", { type := "number", required := true })] }

/-- A schema with one optional string field and no default. -/
def optStringSchema : SchemaDefn :=
  { name := "OptDoc", fields := [("nick", { type := "string" })] }

/-- A schema with a required and an optional integer field. -/
def twoIntSchema : SchemaDefn :=
  { name := "TwoInts",
    fields := [("a", { type := "integer", required := true }),
               ("b", { type := "integer" })] }

/-- A schema whose optional integer field declares the *string* default
`"30"` (the `SchemaDefinition` validator does not type-check defaults,
so this schema is valid). -/
def defaultStrIntSchema : SchemaDefn :=
  { name := "DefDoc",
    fields := [("n", { type := "integer", required := false,
                       default := some (.pstr "30") })] }

/-! ## Claims about the predicate evaluator -/

/-- **C3** (code bug): the spec says `{"or": [A, B]}` evaluates each
branch against the full corpus and unions the row identities, but the
`or` branch of `apply_search_criteria` reads the name `db`, which is not
in scope there, so evaluating any criteria tree whose `or` list is
non-empty raises `NameError` instead of returning the union. -/
theorem claim_C3_or_raises_nameerror (query : List DataRecord)
    (c : SearchCriteria) (cs : List SearchCriteria) :
    apply_search_criteria query (.scOr (c :: cs)) =
      .error "NameError: name 'db' is not defined" := by
  simp [apply_search_criteria]

/-- **C7**: a node that is no `and`/`or` composite and misses at least
one of the three leaf keys leaves the query unchanged, and so does a
full leaf whose operator is outside the whitelist — the evaluator never
errors on such nodes, it matches everything. -/
theorem claim_C7_malformed_leaf_noop (query : List DataRecord)
    (fp op' : Option String) (v : Option PyValue) (f o : String) (w : PyValue)
    (hmal : fp = none ∨ op' = none ∨ v = none)
    (hop : o ∉ searchOperators) :
    apply_search_criteria query (.scLeaf fp op' v) = .ok query ∧
    apply_search_criteria query (.scLeaf (some f) (some o) (some w)) = .ok query := by
  constructor
  · rcases fp with _ | f₀ <;> rcases op' with _ | o₀ <;> rcases v with _ | v₀ <;>
      simp [apply_search_criteria] at hmal ⊢
  · simp [apply_search_criteria, hop]

/-- Witness for C7 at a concrete malformed node and a concrete
unknown operator. -/
theorem claim_C7_witness :
    apply_search_criteria [] (.scLeaf none (some "eq") (some (.pint 1))) = .ok [] ∧
    apply_search_criteria [] (.scLeaf (some "f") (some "between") (some (.pint 1))) = .ok [] :=
  claim_C7_malformed_leaf_noop [] none (some "eq") (some (.pint 1)) "f" "between"
    (.pint 1) (Or.inl rfl) (by decide)

/-! ## Claims about `validate_data` -/

/-- **C2** (counterexample): the claim says a string supplied where
`integer` is declared fails; but Pydantic v1's lenient `int` validator
coerces the numeric string `"30"` to `30`, so `validate_data` succeeds
with a silently coerced value. -/
theorem claim_C2_counterexample :
    validate_data intFieldSchema [("n", .pstr "30")] = .ok [("n", .pint 30)] := rfl

/-- **C2** (amended): a string supplied where `integer` is declared is
*coerced* when Python `int()` accepts it and rejected only otherwise;
an integer literal supplied where `number` is declared is accepted and
widened to a float. -/
theorem claim_C2_amended (s : String) (m : Int) :
    (∀ k, parseIntPy s = some k →
      validate_data intFieldSchema [("n", .pstr s)] = .ok [("n", .pint k)]) ∧
    (parseIntPy s = none →
      validate_data intFieldSchema [("n", .pstr s)] =
        .valueError "Data validation failed: value is not a valid integer") ∧
    validate_data numberFieldSchema [("x", .pint m)] = .ok [("x", .pfloat (m : ℚ))] := by
  refine ⟨fun k hk => ?_, fun hn => ?_, rfl⟩
  · simp [validate_data, create_model_from_schema, buildEntries, buildField,
      fieldDefault, checkAnnotations, annOk, validateModel, dget, validateAnn,
      hk, intFieldSchema, primitiveTypes, get_pydantic_type, exceptBind_ok,
      exceptBind_error]
  · simp [validate_data, create_model_from_schema, buildEntries, buildField,
      fieldDefault, checkAnnotations, annOk, validateModel, dget, validateAnn,
      hn, intFieldSchema, primitiveTypes, get_pydantic_type, exceptBind_ok,
      exceptBind_error]

/-- Witness for C2 (amended) at `s = "30"`, `m = 3`. -/
theorem claim_C2_amended_witness :
    validate_data intFieldSchema [("n", .pstr "30")] = .ok [("n", .pint 30)] ∧
    validate_data numberFieldSchema [("x", .pint 3)] = .ok [("x", .pfloat (3 : ℚ))] :=
  ⟨(claim_C2_amended "30" 3).1 30 rfl, (claim_C2_amended "30" 3).2.2⟩

/-- **C1** (counterexample): the claim's hypothesis constrains only the
*required* fields of `D`; a document that supplies the required field
correctly but an optional declared field with an ill-typed value
falsifies "validate_data succeeds". -/
theorem claim_C1_counterexample :
    validSchema twoIntSchema = true ∧
    suppliesRequired twoIntSchema [("a", .pint 1), ("b", .pstr "abc")] = true ∧
    (validate_data twoIntSchema [("a", .pint 1), ("b", .pstr "abc")]).isOk = false :=
  ⟨rfl, rfl, rfl⟩

/-- **C4** (counterexample): the claim says a field that is absent,
optional, and without default is omitted from the output; but the
generated model gives such a field the implicit default `None` and
`.dict()` serialises every model field, so the key is present with
value `None`. -/
theorem claim_C4_counterexample :
    validate_data optStringSchema [] = .ok [("nick", .pnone)] ∧
    dget [("nick", PyValue.pnone)] "nick" = some .pnone := ⟨rfl, rfl⟩

/-- **C6** (counterexample): Pydantic v1 does not validate default
values, so an optional integer field with string default `"30"`
validates `{}` to `{"n": "30"}`; re-validating that output coerces the
now-present value to `30`, so re-validation succeeds but is *not*
value-equal to the first result. -/
theorem claim_C6_counterexample :
    validate_data defaultStrIntSchema [] = .ok [("n", .pstr "30")] ∧
    validate_data defaultStrIntSchema [("n", .pstr "30")] = .ok [("n", .pint 30)] ∧
    ([("n", PyValue.pint 30)] : PyDict) ≠ [("n", PyValue.pstr "30")] :=
  ⟨rfl, rfl, by simp⟩

/-! ## Claims about error routing (C10) -/

/-- **C10** (counterexample): creating a record against the nonexistent
schema id 5 yields status 400 — the crud layer raises `ValueError` for
the missing schema and the route maps every `ValueError` to 400 — not
the 404 the claim asserts. -/
theorem claim_C10_counterexample :
    create_dynamic_data_route [] [] 7 5 [] =
      .error { status := 400, detail := "Schema with id 5 not found" } ∧
    (400 : Nat) ≠ 404 := ⟨rfl, by decide⟩

/-- **C10** (amended): a missing record on the point-lookup route is a
404, but a missing schema on the record-creation route is reported as a
400 validation-class error, because `crud.create_dynamic_data` signals
it with the same `ValueError` class as validation failures. -/
theorem claim_C10_amended (sdb : List StoredSchema) (db : List DataRecord)
    (newId sid did : Nat) (data : PyDict)
    (hs : get_dynamic_schema sdb sid = none)
    (hd : get_dynamic_data db did false = none) :
    create_dynamic_data_route sdb db newId sid data =
      .error { status := 400, detail := "Schema with id " ++ toString sid ++ " not found" } ∧
    get_dynamic_data_route db did = .error { status := 404, detail := "Data not found" } := by
  constructor
  · simp [create_dynamic_data_route, crud_create_dynamic_data, hs]
  · simp [get_dynamic_data_route, hd]

/-- Witness for C10 (amended) on empty stores. -/
theorem claim_C10_amended_witness :
    create_dynamic_data_route [] [] 7 5 [] =
      .error { status := 400, detail := "Schema with id " ++ toString 5 ++ " not found" } ∧
    get_dynamic_data_route [] 3 = .error { status := 404, detail := "Data not found" } :=
  claim_C10_amended [] [] 7 5 3 [] rfl rfl

/-! ## Claim C8: soft-delete / restore round trip -/

/-- Filtering by a predicate that an update function preserves commutes
with mapping the update. -/
theorem dataFilter_map_comm (l : List DataRecord) (u : DataRecord → DataRecord)
    (pred : DataRecord → Bool) (hu : ∀ x, pred (u x) = pred x) :
    (l.map u).filter pred = (l.filter pred).map u := by
  induction l with
  | nil => rfl
  | cons x t ih =>
    cases h : pred x with
    | true => simp [List.filter_cons, hu, h, ih]
    | false => simp [List.filter_cons, hu, h, ih]

/-- **C8**: for a live stored record, soft-deleting then restoring gives
back the very same record (same `data`, `id`, `schema_id`); the record
is visible to default point lookup and per-schema listing before
deletion and after restore, and invisible to both exactly while
soft-deleted. -/
theorem claim_C8_soft_delete_restore_roundtrip
    (db : List DataRecord) (r : DataRecord) (rid limit : Nat)
    (hget : get_dynamic_data db rid true = some r)
    (hlive : r.is_deleted = false)
    (hlim : db.length ≤ limit) :
    get_dynamic_data db rid false = some r ∧
    r ∈ get_dynamic_data_by_schema db r.schema_id 0 limit false ∧
    get_dynamic_data (soft_delete_dynamic_data db rid).2 rid false = none ∧
    (∀ x ∈ get_dynamic_data_by_schema (soft_delete_dynamic_data db rid).2
        r.schema_id 0 limit false, x.id ≠ rid) ∧
    get_dynamic_data (restore_dynamic_data (soft_delete_dynamic_data db rid).2 rid).2
      rid true = some r ∧
    get_dynamic_data (restore_dynamic_data (soft_delete_dynamic_data db rid).2 rid).2
      rid false = some r ∧
    r ∈ get_dynamic_data_by_schema
        (restore_dynamic_data (soft_delete_dynamic_data db rid).2 rid).2
        r.schema_id 0 limit false := by
  -- Normalise the include-deleted lookup to the id filter.
  have hget' : (db.filter (fun x => decide (x.id = rid))).head? = some r := by
    have h0 := hget
    unfold get_dynamic_data at h0
    simpa using h0
  obtain ⟨t, hft⟩ : ∃ t, db.filter (fun x => decide (x.id = rid)) = r :: t := by
    cases hf : db.filter (fun x => decide (x.id = rid)) with
    | nil => rw [hf] at hget'; simp at hget'
    | cons a t =>
      rw [hf] at hget'; simp at hget'
      refine ⟨t, ?_⟩
      rw [← hget']
  have hmemf : r ∈ db.filter (fun x => decide (x.id = rid)) := by
    rw [hft]; exact List.mem_cons_self r t
  have hrid : r.id = rid := by simpa using (List.mem_filter.1 hmemf).2
  have hmem : r ∈ db := (List.mem_filter.1 hmemf).1
  have hallid : ∀ x ∈ r :: t, x.id = rid := by
    intro x hx
    have hxf : x ∈ db.filter (fun x => decide (x.id = rid)) := by rw [hft]; exact hx
    simpa using (List.mem_filter.1 hxf).2
  -- The two flag updates.
  have hidpres₁ : ∀ x : DataRecord,
      (decide ((if x.id = rid then { x with is_deleted := true } else x).id = rid)) =
        decide (x.id = rid) := by
    intro x; by_cases h : x.id = rid <;> simp [h]
  have hidpres₂ : ∀ x : DataRecord,
      (decide ((if x.id = rid then { x with is_deleted := false } else x).id = rid)) =
        decide (x.id = rid) := by
    intro x; by_cases h : x.id = rid <;> simp [h]
  have hsoft : (soft_delete_dynamic_data db rid).2 =
      db.map (fun x => if x.id = rid then { x with is_deleted := true } else x) := by
    simp [soft_delete_dynamic_data, hget]
  have hback : ({ r with is_deleted := false } : DataRecord) = r := by
    obtain ⟨a, b, c, d⟩ := r
    cases hlive; rfl
  -- lookup in the soft-deleted store, deleted rows included
  have hget₁ : get_dynamic_data
      (db.map (fun x => if x.id = rid then { x with is_deleted := true } else x)) rid true =
      some { r with is_deleted := true } := by
    unfold get_dynamic_data
    rw [dataFilter_map_comm db _ _ hidpres₁, hft]
    simp [hrid]
  have hrest : (restore_dynamic_data (soft_delete_dynamic_data db rid).2 rid).2 =
      (db.map (fun x => if x.id = rid then { x with is_deleted := true } else x)).map
        (fun x => if x.id = rid then { x with is_deleted := false } else x) := by
    rw [hsoft]
    simp [restore_dynamic_data, hget₁]
  have hcomp : ∀ x : DataRecord,
      (if (if x.id = rid then { x with is_deleted := true } else x).id = rid then
        { (if x.id = rid then { x with is_deleted := true } else x) with is_deleted := false }
       else (if x.id = rid then { x with is_deleted := true } else x)) =
      (if x.id = rid then { x with is_deleted := false } else x) := by
    intro x; by_cases h : x.id = rid <;> simp [h]
  have hrest' : (restore_dynamic_data (soft_delete_dynamic_data db rid).2 rid).2 =
      db.map (fun x => if x.id = rid then { x with is_deleted := false } else x) := by
    rw [hrest, List.map_map]
    exact List.map_congr_left (fun x _ => hcomp x)
  refine ⟨?_, ?_, ?_, ?_, ?_, ?_, ?_⟩
  · -- visible to default point lookup before deletion
    unfold get_dynamic_data
    rw [hft]
    simp [List.filter_cons, hlive]
  · -- present in the default per-schema listing before deletion
    unfold get_dynamic_data_by_schema
    rw [List.drop_zero,
      List.take_of_length_le (le_trans (le_trans (List.length_filter_le _ _)
        (List.length_filter_le _ _)) hlim)]
    exact List.mem_filter.2 ⟨List.mem_filter.2 ⟨hmem, by simp⟩, by simp [hlive]⟩
  · -- invisible to default point lookup while soft-deleted
    rw [hsoft]
    unfold get_dynamic_data
    rw [dataFilter_map_comm db _ _ hidpres₁, hft]
    have hdead : ∀ l : List DataRecord, (∀ x ∈ l, x.id = rid) →
        (l.map (fun x => if x.id = rid then { x with is_deleted := true } else x)).filter
          (fun x => false || !x.is_deleted) = [] := by
      intro l h
      rw [List.filter_eq_nil_iff]
      intro x hx
      obtain ⟨y, hy, rfl⟩ := List.mem_map.1 hx
      simp [h y hy]
    rw [hdead (r :: t) hallid]
    rfl
  · -- absent from the default per-schema listing while soft-deleted
    rw [hsoft]
    intro x hx hxid
    unfold get_dynamic_data_by_schema at hx
    rw [List.drop_zero] at hx
    have hx1 := List.mem_of_mem_take hx
    have hdel : (!x.is_deleted) = true := by simpa using (List.mem_filter.1 hx1).2
    have hx2 : x ∈ db.map (fun x => if x.id = rid then { x with is_deleted := true } else x) :=
      (List.mem_filter.1 (List.mem_filter.1 hx1).1).1
    obtain ⟨y, hy, hxy⟩ := List.mem_map.1 hx2
    by_cases h : y.id = rid
    · rw [← hxy] at hdel; simp [h] at hdel
    · rw [← hxy] at hxid; simp [h] at hxid
  · -- restore returns the original record (same id, schema_id, data)
    rw [hrest']
    unfold get_dynamic_data
    rw [dataFilter_map_comm db _ _ hidpres₂, hft]
    have hu₂r : (if r.id = rid then { r with is_deleted := false } else r) = r := by
      rw [if_pos hrid, hback]
    simp [hu₂r]
  · -- visible again to default point lookup after restore
    rw [hrest']
    unfold get_dynamic_data
    rw [dataFilter_map_comm db _ _ hidpres₂, hft]
    have hu₂r : (if r.id = rid then { r with is_deleted := false } else r) = r := by
      rw [if_pos hrid, hback]
    simp [List.filter_cons, hu₂r, hlive]
  · -- present again in the default per-schema listing after restore
    rw [hrest']
    unfold get_dynamic_data_by_schema
    rw [List.drop_zero,
      List.take_of_length_le (le_trans (le_trans (List.length_filter_le _ _)
        (List.length_filter_le _ _)) (by simpa using hlim))]
    refine List.mem_filter.2 ⟨List.mem_filter.2 ⟨?_, by simp⟩, by simp [hlive]⟩
    exact List.mem_map.2 ⟨r, hmem, by rw [if_pos hrid, hback]⟩

/-- Witness for C8 on a one-record store. -/
theorem claim_C8_witness :
    get_dynamic_data [⟨1, 1, [("a", .pint 1)], false⟩] 1 false = some ⟨1, 1, [("a", .pint 1)], false⟩ ∧
    (⟨1, 1, [("a", .pint 1)], false⟩ : DataRecord) ∈
      get_dynamic_data_by_schema [⟨1, 1, [("a", .pint 1)], false⟩] 1 0 100 false ∧
    get_dynamic_data (soft_delete_dynamic_data [⟨1, 1, [("a", .pint 1)], false⟩] 1).2 1 false = none ∧
    (∀ x ∈ get_dynamic_data_by_schema (soft_delete_dynamic_data [⟨1, 1, [("a", .pint 1)], false⟩] 1).2
        1 0 100 false, x.id ≠ 1) ∧
    get_dynamic_data
      (restore_dynamic_data (soft_delete_dynamic_data [⟨1, 1, [("a", .pint 1)], false⟩] 1).2 1).2
      1 true = some ⟨1, 1, [("a", .pint 1)], false⟩ ∧
    get_dynamic_data
      (restore_dynamic_data (soft_delete_dynamic_data [⟨1, 1, [("a", .pint 1)], false⟩] 1).2 1).2
      1 false = some ⟨1, 1, [("a", .pint 1)], false⟩ ∧
    (⟨1, 1, [("a", .pint 1)], false⟩ : DataRecord) ∈
      get_dynamic_data_by_schema
        (restore_dynamic_data (soft_delete_dynamic_data [⟨1, 1, [("a", .pint 1)], false⟩] 1).2 1).2
        1 0 100 false :=
  claim_C8_soft_delete_restore_roundtrip [⟨1, 1, [("a", .pint 1)], false⟩]
    ⟨1, 1, [("a", .pint 1)], false⟩ 1 100 rfl rfl (by decide)

/-! ## Claim C9: per-record independence of migrate-data -/

/-- Invariant of the migration loop: the `total` set before the loop is
never touched; each record adds exactly one to `migrated` or to
`failed`; the error list grows by exactly the `{id, error}` entries of
the failing records, in order; the record list keeps its length. -/
theorem migrateLoop_spec (sd : SchemaDefn) (cfg : MigrationConfig)
    (items : List DataRecord) (acc : MigrationResults) :
    (migrateLoop sd cfg items acc).1.total = acc.total ∧
    (migrateLoop sd cfg items acc).1.migrated + (migrateLoop sd cfg items acc).1.failed =
      acc.migrated + acc.failed + items.length ∧
    (migrateLoop sd cfg items acc).1.errors = acc.errors ++ items.filterMap
      (fun it => match migrateRecord sd cfg it with
        | .ok _ => none
        | .error e => some (it.id, e)) ∧
    (migrateLoop sd cfg items acc).1.failed = acc.failed + (items.filterMap
      (fun it => match migrateRecord sd cfg it with
        | .ok _ => none
        | .error e => some (it.id, e))).length ∧
    (migrateLoop sd cfg items acc).2.length = items.length := by
  induction items generalizing acc with
  | nil => simp [migrateLoop]
  | cons it rest ih =>
    cases hm : migrateRecord sd cfg it with
    | ok v =>
      have h := ih { acc with migrated := acc.migrated + 1 }
      have h1 : (migrateLoop sd cfg rest { acc with migrated := acc.migrated + 1 }).1.total =
          acc.total := h.1
      have h2 : (migrateLoop sd cfg rest { acc with migrated := acc.migrated + 1 }).1.migrated +
          (migrateLoop sd cfg rest { acc with migrated := acc.migrated + 1 }).1.failed =
          acc.migrated + 1 + acc.failed + rest.length := h.2.1
      have h3 : (migrateLoop sd cfg rest { acc with migrated := acc.migrated + 1 }).1.errors =
          acc.errors ++ rest.filterMap
            (fun it => match migrateRecord sd cfg it with
              | .ok _ => none
              | .error e => some (it.id, e)) := h.2.2.1
      have h4 : (migrateLoop sd cfg rest { acc with migrated := acc.migrated + 1 }).1.failed =
          acc.failed + (rest.filterMap
            (fun it => match migrateRecord sd cfg it with
              | .ok _ => none
              | .error e => some (it.id, e))).length := h.2.2.2.1
      have h5 : (migrateLoop sd cfg rest { acc with migrated := acc.migrated + 1 }).2.length =
          rest.length := h.2.2.2.2
      simp only [migrateLoop, hm, List.filterMap_cons]
      refine ⟨h1, ?_, h3, h4, ?_⟩
      · rw [h2]; simp; omega
      · simp [h5]
    | error e =>
      have h := ih { acc with failed := acc.failed + 1, errors := acc.errors ++ [(it.id, e)] }
      have h1 : (migrateLoop sd cfg rest
          { acc with failed := acc.failed + 1, errors := acc.errors ++ [(it.id, e)] }).1.total =
          acc.total := h.1
      have h2 : (migrateLoop sd cfg rest
          { acc with failed := acc.failed + 1, errors := acc.errors ++ [(it.id, e)] }).1.migrated +
          (migrateLoop sd cfg rest
          { acc with failed := acc.failed + 1, errors := acc.errors ++ [(it.id, e)] }).1.failed =
          acc.migrated + (acc.failed + 1) + rest.length := h.2.1
      have h3 : (migrateLoop sd cfg rest
          { acc with failed := acc.failed + 1, errors := acc.errors ++ [(it.id, e)] }).1.errors =
          (acc.errors ++ [(it.id, e)]) ++ rest.filterMap
            (fun it => match migrateRecord sd cfg it with
              | .ok _ => none
              | .error e => some (it.id, e)) := h.2.2.1
      have h4 : (migrateLoop sd cfg rest
          { acc with failed := acc.failed + 1, errors := acc.errors ++ [(it.id, e)] }).1.failed =
          (acc.failed + 1) + (rest.filterMap
            (fun it => match migrateRecord sd cfg it with
              | .ok _ => none
              | .error e => some (it.id, e))).length := h.2.2.2.1
      have h5 : (migrateLoop sd cfg rest
          { acc with failed := acc.failed + 1, errors := acc.errors ++ [(it.id, e)] }).2.length =
          rest.length := h.2.2.2.2
      simp only [migrateLoop, hm, List.filterMap_cons]
      refine ⟨h1, ?_, ?_, ?_, ?_⟩
      · rw [h2]; simp; omega
      · rw [h3]; simp
      · rw [h4]; simp; omega
      · simp [h5]

/-- **C9**: a migrate-data invocation over the records fetched for the
schema (soft-deleted ones included) treats every record independently:
the aggregate satisfies `total = len(data_items)`,
`migrated + failed = total`, the error list is exactly one `{id, error}`
entry per failing record (in corpus order), `failed` equals its length,
and the batch is never aborted — the output record list keeps every
record. -/
theorem claim_C9_migration_counts (sdb : List StoredSchema) (db : List DataRecord)
    (schema_id : Nat) (cfg : MigrationConfig) (schema : StoredSchema)
    (res : MigrationResults) (items' : List DataRecord)
    (hs : get_dynamic_schema sdb schema_id = some schema)
    (hok : migrate_existing_data sdb db schema_id cfg = .ok (res, items')) :
    res.total = (get_dynamic_data_by_schema db schema_id 0 100 true).length ∧
    res.migrated + res.failed = res.total ∧
    res.errors = (get_dynamic_data_by_schema db schema_id 0 100 true).filterMap
      (fun it => match migrateRecord schema.schema_definition cfg it with
        | .ok _ => none
        | .error e => some (it.id, e)) ∧
    res.failed = res.errors.length ∧
    items'.length = res.total := by
  unfold migrate_existing_data at hok
  rw [hs] at hok
  by_cases hv : validSchema schema.schema_definition = true
  · simp only [hv, if_true, Except.ok.injEq] at hok
    have hres : res = (migrateLoop schema.schema_definition cfg
        (get_dynamic_data_by_schema db schema_id 0 100 true)
        { total := (get_dynamic_data_by_schema db schema_id 0 100 true).length,
          migrated := 0, failed := 0, errors := [] }).1 := by rw [hok]
    have hitems : items' = (migrateLoop schema.schema_definition cfg
        (get_dynamic_data_by_schema db schema_id 0 100 true)
        { total := (get_dynamic_data_by_schema db schema_id 0 100 true).length,
          migrated := 0, failed := 0, errors := [] }).2 := by rw [hok]
    have H := migrateLoop_spec schema.schema_definition cfg
      (get_dynamic_data_by_schema db schema_id 0 100 true)
      { total := (get_dynamic_data_by_schema db schema_id 0 100 true).length,
        migrated := 0, failed := 0, errors := [] }
    have H1 : (migrateLoop schema.schema_definition cfg
        (get_dynamic_data_by_schema db schema_id 0 100 true)
        { total := (get_dynamic_data_by_schema db schema_id 0 100 true).length,
          migrated := 0, failed := 0, errors := [] }).1.total =
        (get_dynamic_data_by_schema db schema_id 0 100 true).length := H.1
    have H2 : (migrateLoop schema.schema_definition cfg
        (get_dynamic_data_by_schema db schema_id 0 100 true)
        { total := (get_dynamic_data_by_schema db schema_id 0 100 true).length,
          migrated := 0, failed := 0, errors := [] }).1.migrated +
        (migrateLoop schema.schema_definition cfg
        (get_dynamic_data_by_schema db schema_id 0 100 true)
        { total := (get_dynamic_data_by_schema db schema_id 0 100 true).length,
          migrated := 0, failed := 0, errors := [] }).1.failed =
        0 + 0 + (get_dynamic_data_by_schema db schema_id 0 100 true).length := H.2.1
    have H3 : (migrateLoop schema.schema_definition cfg
        (get_dynamic_data_by_schema db schema_id 0 100 true)
        { total := (get_dynamic_data_by_schema db schema_id 0 100 true).length,
          migrated := 0, failed := 0, errors := [] }).1.errors =
        (get_dynamic_data_by_schema db schema_id 0 100 true).filterMap
          (fun it => match migrateRecord schema.schema_definition cfg it with
            | .ok _ => none
            | .error e => some (it.id, e)) := H.2.2.1
    have H4 : (migrateLoop schema.schema_definition cfg
        (get_dynamic_data_by_schema db schema_id 0 100 true)
        { total := (get_dynamic_data_by_schema db schema_id 0 100 true).length,
          migrated := 0, failed := 0, errors := [] }).1.failed =
        0 + ((get_dynamic_data_by_schema db schema_id 0 100 true).filterMap
          (fun it => match migrateRecord schema.schema_definition cfg it with
            | .ok _ => none
            | .error e => some (it.id, e))).length := H.2.2.2.1
    have H5 : (migrateLoop schema.schema_definition cfg
        (get_dynamic_data_by_schema db schema_id 0 100 true)
        { total := (get_dynamic_data_by_schema db schema_id 0 100 true).length,
          migrated := 0, failed := 0, errors := [] }).2.length =
        (get_dynamic_data_by_schema db schema_id 0 100 true).length := H.2.2.2.2
    rw [hres, hitems]
    refine ⟨H1, ?_, H3, ?_, ?_⟩
    · rw [H2, H1]; omega
    · rw [H4, H3]; omega
    · rw [H5, H1]
  · simp only [hv, Bool.false_eq_true, if_false] at hok
    cases hok

/-- The store for the C9 witness: two records under schema 1 and one
under schema 2. -/
def migSampleDb : List DataRecord :=
  [⟨1, 1, [("old", .pint 3)], false⟩, ⟨2, 1, [("old", .pstr "bad")], false⟩,
   ⟨9, 2, [], false⟩]

/-- The stored schema for the C9 witness. -/
def migSampleSchema : StoredSchema :=
  { id := 1, name := "s",
    schema_definition :=
      { name := "s", fields := [("new", { type := "integer", required := true })] } }

/-- The migration config for the C9 witness: rename `old` to `new`. -/
def migSampleCfg : MigrationConfig := { field_mappings := [("old", "new")] }

/-- The aggregate the C9 witness invocation produces. -/
def migSampleResults : MigrationResults :=
  { total := 2, migrated := 1, failed := 1,
    errors := [(2, "Data validation failed: value is not a valid integer")] }

/-- Witness for C9: id 1 migrates, id 2 fails validation after the
rename, id 9 belongs to another schema. -/
theorem claim_C9_witness :
    migSampleResults.total = (get_dynamic_data_by_schema migSampleDb 1 0 100 true).length ∧
    migSampleResults.migrated + migSampleResults.failed = migSampleResults.total ∧
    migSampleResults.errors = (get_dynamic_data_by_schema migSampleDb 1 0 100 true).filterMap
      (fun it => match migrateRecord migSampleSchema.schema_definition migSampleCfg it with
        | .ok _ => none
        | .error e => some (it.id, e)) ∧
    migSampleResults.failed = migSampleResults.errors.length ∧
    ([⟨1, 1, [("new", .pint 3)], false⟩, ⟨2, 1, [("old", .pstr "bad")], false⟩] :
        List DataRecord).length = migSampleResults.total :=
  claim_C9_migration_counts [migSampleSchema] migSampleDb 1 migSampleCfg migSampleSchema
    migSampleResults
    [⟨1, 1, [("new", .pint 3)], false⟩, ⟨2, 1, [("old", .pstr "bad")], false⟩]
    rfl rfl

/-! ## Structural lemmas about the generated model -/

/-- Every successful `buildField` branch stores `fieldDefault fd` as the
field's default. -/
theorem buildField_dflt (fd : FieldDef) (mf : ModelField)
    (h : buildField fd = some (.ok mf)) : mf.dflt = fieldDefault fd := by
  unfold buildField at h
  split_ifs at h <;>
    try (simp only [Option.some.injEq, Except.ok.injEq] at h; rw [← h])
  all_goals
    cases hit : fd.items with
    | none => rw [hit] at h; simp at h
    | some it =>
      rw [hit] at h
      simp only [Option.some.injEq, Except.ok.injEq] at h
      rw [← h]

/-- A field definition that passes the `SchemaDefinition` validator
always yields a model field. -/
theorem buildField_ok_of_valid (fd : FieldDef) (h : validFieldDef fd = true) :
    ∃ mf, buildField fd = some (.ok mf) := by
  unfold validFieldDef at h
  simp only [Bool.and_eq_true, decide_eq_true_eq, Bool.or_eq_true, decide_eq_true_eq,
    Option.isSome_iff_exists] at h
  obtain ⟨⟨hmem, harr⟩, hobj⟩ := h
  have hmem' : fd.type ∈ validTypes := by simpa using hmem
  simp only [validTypes, List.mem_cons, List.not_mem_nil, or_false] at hmem'
  rcases hmem' with h | h | h | h | h | h | h | h <;>
    unfold buildField <;> simp [h, primitiveTypes]
  · -- array: items must be present
    rcases harr with harr | ⟨it, hit⟩
    · simp [h] at harr
    · rw [hit]; exact ⟨_, rfl⟩

/-- The `field_definitions` loop under a fields list whose entries all
build: it returns the entries in order, with the same keys. -/
theorem buildEntries_all_ok (fields : List (String × FieldDef))
    (h : ∀ p ∈ fields, ∃ mf, buildField p.2 = some (.ok mf)) :
    ∃ E, buildEntries fields = .ok E ∧
      E.map Prod.fst = fields.map Prod.fst ∧
      (∀ q ∈ E, ∃ fd, (q.1, fd) ∈ fields ∧ buildField fd = some (.ok q.2)) ∧
      (∀ p ∈ fields, ∃ mf, buildField p.2 = some (.ok mf) ∧ (p.1, mf) ∈ E) := by
  induction fields with
  | nil => exact ⟨[], rfl, rfl, by simp, by simp⟩
  | cons p rest ih =>
    obtain ⟨f, fd⟩ := p
    obtain ⟨mf, hmf⟩ := h (f, fd) (List.mem_cons_self _ _)
    obtain ⟨E, hE, hkeys, hback, hfwd⟩ := ih (fun q hq => h q (List.mem_cons_of_mem _ hq))
    refine ⟨(f, mf) :: E, ?_, ?_, ?_, ?_⟩
    · simp only [buildEntries, hmf, hE]; rfl
    · simp [hkeys]
    · intro q hq
      rcases List.mem_cons.1 hq with rfl | hq'
      · exact ⟨fd, List.mem_cons_self _ _, hmf⟩
      · obtain ⟨fd', hfd', hb⟩ := hback q hq'
        exact ⟨fd', List.mem_cons_of_mem _ hfd', hb⟩
    · intro p hp
      rcases List.mem_cons.1 hp with rfl | hp'
      · exact ⟨mf, hmf, List.mem_cons_self _ _⟩
      · obtain ⟨mf', hmf', hmem'⟩ := hfwd p hp'
        exact ⟨mf', hmf', List.mem_cons_of_mem _ hmem'⟩

/-- When `create_model` succeeds, it returns the entries unchanged and
every annotation passed the validator-construction check. -/
theorem checkAnnotations_ok (E M : List (String × ModelField))
    (h : checkAnnotations E = .ok M) :
    M = E ∧ ∀ q ∈ E, annOk q.2.ann = true := by
  induction E generalizing M with
  | nil =>
    simp only [checkAnnotations, Except.ok.injEq] at h
    exact ⟨h.symm, by simp⟩
  | cons q rest ih =>
    obtain ⟨f, mf⟩ := q
    unfold checkAnnotations at h
    by_cases ha : annOk mf.ann = true
    · rw [if_pos ha] at h
      cases hr : checkAnnotations rest with
      | error e => rw [hr] at h; cases h
      | ok M' =>
        rw [hr] at h
        simp only [exceptBind_ok, Except.ok.injEq] at h
        obtain ⟨hM', hall⟩ := ih M' hr
        refine ⟨by rw [← h, hM'], ?_⟩
        intro p hp
        rcases List.mem_cons.1 hp with rfl | hp'
        · exact ha
        · exact hall p hp'
    · rw [if_neg ha] at h; cases h

/-- Summary of successful model creation over a fields list whose
entries all build: keys coincide and entries correspond both ways. -/
theorem create_model_spec (S : SchemaDefn) (M : List (String × ModelField))
    (hM : create_model_from_schema S = .ok M)
    (hv : ∀ p ∈ S.fields, ∃ mf, buildField p.2 = some (.ok mf)) :
    M.map Prod.fst = S.fields.map Prod.fst ∧
    (∀ q ∈ M, ∃ fd, (q.1, fd) ∈ S.fields ∧ buildField fd = some (.ok q.2)) ∧
    (∀ p ∈ S.fields, ∃ mf, buildField p.2 = some (.ok mf) ∧ (p.1, mf) ∈ M) := by
  obtain ⟨E, hE, hkeys, hback, hfwd⟩ := buildEntries_all_ok S.fields hv
  unfold create_model_from_schema at hM
  rw [hE] at hM
  rw [exceptBind_ok] at hM
  obtain ⟨hME, _⟩ := checkAnnotations_ok E M hM
  subst hME
  exact ⟨hkeys, hback, hfwd⟩

/-- Every valid schema's fields all build. -/
theorem valid_fields_build (S : SchemaDefn) (hv : validSchema S = true) :
    ∀ p ∈ S.fields, ∃ mf, buildField p.2 = some (.ok mf) := by
  intro p hp
  have := (List.all_eq_true.1 hv) p hp
  exact buildField_ok_of_valid p.2 (by simpa using this)

/-! ## Value-level lemmas about the Pydantic validators -/

/-- Elements of a successful element-wise validation all come from
successful element validations. -/
theorem exceptMapList_ok_forall (f : PyValue → Except String PyValue)
    (xs ys : List PyValue) (h : exceptMapList f xs = .ok ys) :
    ∀ y ∈ ys, ∃ x ∈ xs, f x = .ok y := by
  induction xs generalizing ys with
  | nil =>
    cases h
    simp
  | cons x t ih =>
    unfold exceptMapList at h
    cases hx : f x with
    | error e => rw [hx, exceptBind_error] at h; cases h
    | ok y₀ =>
      rw [hx, exceptBind_ok] at h
      cases ht : exceptMapList f t with
      | error e => rw [ht, exceptBind_error] at h; cases h
      | ok ys₀ =>
        rw [ht, exceptBind_ok] at h
        cases h
        intro y hy
        rcases List.mem_cons.1 hy with rfl | hy'
        · exact ⟨x, List.mem_cons_self x t, hx⟩
        · obtain ⟨x', hx', hfx'⟩ := ih ys₀ ht y hy'
          exact ⟨x', List.mem_cons_of_mem x hx', hfx'⟩

/-- A list whose elements validate to themselves validates to itself. -/
theorem exceptMapList_validate_id (t : PyAnn) (xs : List PyValue)
    (h : ∀ x ∈ xs, validateAnn t x = .ok x) :
    exceptMapList (fun x => validateAnn t x) xs = .ok xs := by
  induction xs with
  | nil => rfl
  | cons y ys ih =>
    unfold exceptMapList
    rw [h y (List.mem_cons_self y ys), exceptBind_ok,
      ih (fun x hx => h x (List.mem_cons_of_mem y hx)), exceptBind_ok]

/-- Whatever a Pydantic validator returns is of the annotation's shape. -/
theorem validateAnn_output_matches : ∀ (a : PyAnn) (v w : PyValue),
    validateAnn a v = .ok w → valueMatchesAnn a w = true := by
  intro a
  induction a with
  | pyStr =>
    intro v w h
    cases v <;> simp [validateAnn] at h <;> subst h <;> simp [valueMatchesAnn]
  | pyInt =>
    intro v w h
    cases v <;> simp [validateAnn] at h
    case pbool => subst h; simp [valueMatchesAnn]
    case pint => subst h; simp [valueMatchesAnn]
    case pfloat => subst h; simp [valueMatchesAnn]
    case pstr s =>
      cases hp : parseIntPy s with
      | none => rw [hp] at h; simp at h
      | some n => rw [hp] at h; simp at h; subst h; simp [valueMatchesAnn]
  | pyFloat =>
    intro v w h
    cases v <;> simp [validateAnn] at h
    case pbool => subst h; simp [valueMatchesAnn]
    case pint => subst h; simp [valueMatchesAnn]
    case pfloat => subst h; simp [valueMatchesAnn]
    case pstr s =>
      cases hp : parseFloatPy s with
      | none => rw [hp] at h; simp at h
      | some q => rw [hp] at h; simp at h; subst h; simp [valueMatchesAnn]
  | pyBool =>
    intro v w h
    cases v <;> simp [validateAnn] at h
    case pbool => subst h; simp [valueMatchesAnn]
    case pint n =>
      by_cases h1 : n = 1
      · rw [if_pos h1] at h; simp at h; subst h; simp [valueMatchesAnn]
      · rw [if_neg h1] at h
        by_cases h0 : n = 0
        · rw [if_pos h0] at h; simp at h; subst h; simp [valueMatchesAnn]
        · rw [if_neg h0] at h; simp at h
    case pfloat q =>
      by_cases h1 : q = 1
      · rw [if_pos h1] at h; simp at h; subst h; simp [valueMatchesAnn]
      · rw [if_neg h1] at h
        by_cases h0 : q = 0
        · rw [if_pos h0] at h; simp at h; subst h; simp [valueMatchesAnn]
        · rw [if_neg h0] at h; simp at h
    case pstr s =>
      cases hp : pyBoolOfStr s with
      | none => rw [hp] at h; simp at h
      | some b => rw [hp] at h; simp at h; subst h; simp [valueMatchesAnn]
  | pyDatetime =>
    intro v w h
    cases v <;> simp [validateAnn] at h
    case pdatetime => subst h; simp [valueMatchesAnn]
    case pstr s =>
      cases hp : parseDatetimePy s with
      | none => rw [hp] at h; simp at h
      | some x =>
        obtain ⟨y, m, d, hh, mi, ss⟩ := x
        rw [hp] at h; simp at h; subst h; simp [valueMatchesAnn]
  | pyDateMethod => intro v w h; simp [validateAnn] at h
  | pyBareList =>
    intro v w h
    cases v <;> simp [validateAnn] at h
    case plist => subst h; simp [valueMatchesAnn]
  | pyDictStrAny =>
    intro v w h
    cases v <;> simp [validateAnn] at h
    case pdict => subst h; simp [valueMatchesAnn]
  | pyAny =>
    intro v w h
    simp [validateAnn] at h
    subst h; simp [valueMatchesAnn]
  | pyListOf t ih =>
    intro v w h
    cases v <;> simp [validateAnn] at h
    case plist xs =>
      cases hm : exceptMapList (fun x => validateAnn t x) xs with
      | error e => rw [hm, exceptBind_error] at h; cases h
      | ok ys =>
        rw [hm, exceptBind_ok] at h
        cases h
        simp only [valueMatchesAnn, List.all_eq_true]
        intro y hy
        obtain ⟨x, _, hfx⟩ := exceptMapList_ok_forall _ xs ys hm y hy
        exact ih x y hfx
  | pyOptional t ih =>
    intro v w h
    cases v with
    | pnone =>
      simp [validateAnn] at h
      subst h; simp [valueMatchesAnn]
    | pbool b =>
      have h' : validateAnn t (.pbool b) = .ok w := h
      have := ih _ _ h'
      cases w <;> simp [valueMatchesAnn] at this ⊢ <;> exact this
    | pint n =>
      have := ih _ _ h
      cases w <;> simp [valueMatchesAnn] at this ⊢ <;> exact this
    | pfloat q =>
      have := ih _ _ h
      cases w <;> simp [valueMatchesAnn] at this ⊢ <;> exact this
    | pstr s =>
      have := ih _ _ h
      cases w <;> simp [valueMatchesAnn] at this ⊢ <;> exact this
    | pdate y m d =>
      have := ih _ _ h
      cases w <;> simp [valueMatchesAnn] at this ⊢ <;> exact this
    | pdatetime y m d hh mi ss =>
      have := ih _ _ h
      cases w <;> simp [valueMatchesAnn] at this ⊢ <;> exact this
    | plist xs =>
      have := ih _ _ h
      cases w <;> simp [valueMatchesAnn] at this ⊢ <;> exact this
    | pdict xs =>
      have := ih _ _ h
      cases w <;> simp [valueMatchesAnn] at this ⊢ <;> exact this

/-- A value already of the annotation's shape validates to itself. -/
theorem validateAnn_of_matches : ∀ (a : PyAnn) (v : PyValue),
    valueMatchesAnn a v = true → validateAnn a v = .ok v := by
  intro a
  induction a with
  | pyStr =>
    intro v h
    cases v <;> simp [valueMatchesAnn] at h
    rfl
  | pyInt =>
    intro v h
    cases v <;> simp [valueMatchesAnn] at h
    rfl
  | pyFloat =>
    intro v h
    cases v <;> simp [valueMatchesAnn] at h
    rfl
  | pyBool =>
    intro v h
    cases v <;> simp [valueMatchesAnn] at h
    rfl
  | pyDatetime =>
    intro v h
    cases v <;> simp [valueMatchesAnn] at h
    rfl
  | pyDateMethod => intro v h; simp [valueMatchesAnn] at h
  | pyBareList =>
    intro v h
    cases v <;> simp [valueMatchesAnn] at h
    rfl
  | pyDictStrAny =>
    intro v h
    cases v <;> simp [valueMatchesAnn] at h
    rfl
  | pyAny => intro v _; rfl
  | pyListOf t ih =>
    intro v h
    cases v <;> simp [valueMatchesAnn] at h
    case plist xs =>
      have hmap := exceptMapList_validate_id t xs (fun x hx => ih x (h x hx))
      simp [validateAnn, hmap, exceptBind_ok]
  | pyOptional t ih =>
    intro v h
    cases v with
    | pnone => rfl
    | pbool b => exact ih _ (by simpa [valueMatchesAnn] using h)
    | pint n => exact ih _ (by simpa [valueMatchesAnn] using h)
    | pfloat q => exact ih _ (by simpa [valueMatchesAnn] using h)
    | pstr s => exact ih _ (by simpa [valueMatchesAnn] using h)
    | pdate y m d => exact ih _ (by simpa [valueMatchesAnn] using h)
    | pdatetime y m d hh mi ss => exact ih _ (by simpa [valueMatchesAnn] using h)
    | plist xs => exact ih _ (by simpa [valueMatchesAnn] using h)
    | pdict xs => exact ih _ (by simpa [valueMatchesAnn] using h)

/-- The Pydantic validators are idempotent: whatever one returns passes
the same validator unchanged. -/
theorem validateAnn_fix (a : PyAnn) (v w : PyValue)
    (h : validateAnn a v = .ok w) : validateAnn a w = .ok w :=
  validateAnn_of_matches a w (validateAnn_output_matches a v w h)

/-! ## Lemmas about running the generated model -/

/-- If every model field either validates its supplied value or has a
default to fall back to, the model run succeeds, producing one entry per
model field, in order. -/
theorem validateModel_ok_of (M : List (String × ModelField)) (D : PyDict)
    (h : ∀ p ∈ M, (∃ v w, dget D p.1 = some v ∧ validateAnn p.2.ann v = .ok w) ∨
      (dget D p.1 = none ∧ p.2.dflt.isSome)) :
    ∃ V, validateModel M D = .ok V ∧ V.map Prod.fst = M.map Prod.fst := by
  induction M with
  | nil => exact ⟨[], rfl, rfl⟩
  | cons q rest ih =>
    obtain ⟨f, mf⟩ := q
    obtain ⟨V', hV', hkeys⟩ := ih (fun p hp => h p (List.mem_cons_of_mem _ hp))
    rcases h (f, mf) (List.mem_cons_self _ _) with ⟨v, w, hv, hw⟩ | ⟨hnone, hdef⟩
    · have hv' : dget D f = some v := hv
      have hw' : validateAnn mf.ann v = .ok w := hw
      refine ⟨(f, w) :: V', ?_, by simp [hkeys]⟩
      simp only [validateModel, hv', hw', hV', exceptBind_ok]
    · have hnone' : dget D f = none := hnone
      obtain ⟨d, hd⟩ := Option.isSome_iff_exists.1 hdef
      have hd' : mf.dflt = some d := hd
      refine ⟨(f, d) :: V', ?_, by simp [hkeys]⟩
      simp only [validateModel, hnone', hd', hV', exceptBind_ok]

/-- A successful model run means every field that was absent from the
input had a default. -/
theorem validateModel_requires (M : List (String × ModelField)) (D V : PyDict)
    (h : validateModel M D = .ok V) :
    ∀ p ∈ M, dget D p.1 = none → p.2.dflt.isSome := by
  induction M generalizing V with
  | nil => simp
  | cons q rest ih =>
    obtain ⟨f, mf⟩ := q
    intro p hp hnone
    unfold validateModel at h
    cases hg : dget D f with
    | some v =>
      simp only [hg] at h
      cases hw : validateAnn mf.ann v with
      | error e => rw [hw, exceptBind_error] at h; cases h
      | ok w =>
        rw [hw, exceptBind_ok] at h
        cases hrest : validateModel rest D with
        | error e => rw [hrest, exceptBind_error] at h; cases h
        | ok tl =>
          rcases List.mem_cons.1 hp with rfl | hp'
          · have hnone' : dget D f = none := hnone
            simp only [hg] at hnone'; cases hnone'
          · exact ih tl hrest p hp' hnone
    | none =>
      simp only [hg] at h
      cases hd : mf.dflt with
      | none => simp only [hd] at h; cases h
      | some d =>
        simp only [hd] at h
        cases hrest : validateModel rest D with
        | error e => rw [hrest, exceptBind_error] at h; cases h
        | ok tl =>
          rcases List.mem_cons.1 hp with rfl | hp'
          · simp [hd]
          · exact ih tl hrest p hp' hnone

/-- Per-field characterisation of the output of a successful model run
(unique field names): a supplied value appears validated under its key;
an absent field appears with its (unvalidated) default. -/
theorem validateModel_lookup : ∀ (M : List (String × ModelField)) (D V : PyDict),
    validateModel M D = .ok V → (M.map Prod.fst).Nodup →
    ∀ p ∈ M,
      (∀ v, dget D p.1 = some v → ∃ w, validateAnn p.2.ann v = .ok w ∧ dget V p.1 = some w) ∧
      (dget D p.1 = none → ∃ d, p.2.dflt = some d ∧ dget V p.1 = some d) := by
  intro M
  induction M with
  | nil => simp
  | cons q rest ih =>
    obtain ⟨f, mf⟩ := q
    intro D V h hnd
    rw [List.map_cons, List.nodup_cons] at hnd
    obtain ⟨hfnot, hndrest⟩ := hnd
    unfold validateModel at h
    cases hg : dget D f with
    | some v₀ =>
      simp only [hg] at h
      cases hw : validateAnn mf.ann v₀ with
      | error e => rw [hw, exceptBind_error] at h; cases h
      | ok w₀ =>
        rw [hw, exceptBind_ok] at h
        cases hrest : validateModel rest D with
        | error e => rw [hrest, exceptBind_error] at h; cases h
        | ok tl =>
          rw [hrest, exceptBind_ok] at h
          cases h
          intro p hp
          rcases List.mem_cons.1 hp with rfl | hp'
          · constructor
            · intro v hv
              have hv' : dget D f = some v := hv
              simp only [hg] at hv'
              cases hv'
              exact ⟨w₀, hw, by simp [dget]⟩
            · intro hn
              have hn' : dget D f = none := hn
              simp only [hg] at hn'; cases hn'
          · have hne : ¬ (f = p.1) := by
              intro he
              refine hfnot ?_
              rw [he]
              exact List.mem_map.2 ⟨p, hp', rfl⟩
            have hskip : ∀ w, dget ((f, w) :: tl) p.1 = dget tl p.1 := by
              intro w; simp [dget, hne]
            have htl := ih D tl hrest hndrest p hp'
            constructor
            · intro v hv
              obtain ⟨w, hww, hlook⟩ := htl.1 v hv
              exact ⟨w, hww, by rw [hskip]; exact hlook⟩
            · intro hn
              obtain ⟨d, hdd, hlook⟩ := htl.2 hn
              exact ⟨d, hdd, by rw [hskip]; exact hlook⟩
    | none =>
      simp only [hg] at h
      cases hd : mf.dflt with
      | none => simp only [hd] at h; cases h
      | some d₀ =>
        simp only [hd] at h
        cases hrest : validateModel rest D with
        | error e => rw [hrest, exceptBind_error] at h; cases h
        | ok tl =>
          rw [hrest, exceptBind_ok] at h
          cases h
          intro p hp
          rcases List.mem_cons.1 hp with rfl | hp'
          · constructor
            · intro v hv
              have hv' : dget D f = some v := hv
              simp only [hg] at hv'; cases hv'
            · intro _
              exact ⟨d₀, hd, by simp [dget]⟩
          · have hne : ¬ (f = p.1) := by
              intro he
              refine hfnot ?_
              rw [he]
              exact List.mem_map.2 ⟨p, hp', rfl⟩
            have hskip : dget ((f, d₀) :: tl) p.1 = dget tl p.1 := by
              simp [dget, hne]
            have htl := ih D tl hrest hndrest p hp'
            constructor
            · intro v hv
              obtain ⟨w, hww, hlook⟩ := htl.1 v hv
              exact ⟨w, hww, by rw [hskip]; exact hlook⟩
            · intro hn
              obtain ⟨d, hdd, hlook⟩ := htl.2 hn
              exact ⟨d, hdd, by rw [hskip]; exact hlook⟩

/-- The model run only reads the input at the model's own keys. -/
theorem validateModel_congr (M : List (String × ModelField)) (D₁ D₂ : PyDict)
    (h : ∀ p ∈ M, dget D₁ p.1 = dget D₂ p.1) :
    validateModel M D₁ = validateModel M D₂ := by
  induction M with
  | nil => rfl
  | cons q rest ih =>
    obtain ⟨f, mf⟩ := q
    have h' : dget D₁ f = dget D₂ f := h (f, mf) (List.mem_cons_self _ _)
    have ih' := ih (fun p hp => h p (List.mem_cons_of_mem _ hp))
    unfold validateModel
    rw [h', ih']

/-- Keys of successfully built entries form a sublist of the schema's
field names (fields of unknown type are skipped). -/
theorem buildEntries_keys_sublist : ∀ (fields : List (String × FieldDef))
    (E : List (String × ModelField)), buildEntries fields = .ok E →
    List.Sublist (E.map Prod.fst) (fields.map Prod.fst) := by
  intro fields
  induction fields with
  | nil => intro E h; cases h; simp
  | cons p rest ih =>
    obtain ⟨f, fd⟩ := p
    intro E h
    unfold buildEntries at h
    cases hb : buildField fd with
    | none =>
      simp only [hb] at h
      exact (ih E h).cons _
    | some r =>
      cases r with
      | error e => simp only [hb] at h; cases h
      | ok mf =>
        simp only [hb] at h
        cases hrest : buildEntries rest with
        | error e => simp only [hrest, exceptBind_error] at h; cases h
        | ok E' =>
          simp only [hrest, exceptBind_ok] at h
          cases h
          simpa using (ih E' hrest).cons₂ f

/-! ## Claim C5: a missing required field fails validation -/

/-- **C5**: whenever a field of a valid schema is required, carries no
declared default, and is absent from the document, `validate_data`
returns no document; and whenever the runtime model can be built at all
(no date-typed field), the failure is precisely the caught-and-re-raised
`ValueError` carrying the validation message. -/
theorem claim_C5_required_missing_fails (S : SchemaDefn) (D : PyDict)
    (f : String) (fd : FieldDef)
    (hv : validSchema S = true)
    (hmem : (f, fd) ∈ S.fields)
    (hreq : fd.required = true)
    (hnodef : fd.default = none)
    (habs : dget D f = none) :
    (validate_data S D).isOk = false ∧
    (excOk (create_model_from_schema S) = true →
      (validate_data S D).isValueError = true) := by
  cases hM : create_model_from_schema S with
  | error e =>
    constructor
    · simp [validate_data, hM, VResult.isOk]
    · intro hcontr
      simp [excOk] at hcontr
  | ok M =>
    obtain ⟨hkeys, hback, hfwd⟩ :=
      create_model_spec S M hM (valid_fields_build S hv)
    obtain ⟨mf, hmf, hmemM⟩ := hfwd (f, fd) hmem
    have hdflt : mf.dflt = none := by
      rw [buildField_dflt fd mf hmf]
      simp [fieldDefault, hnodef, hreq]
    cases hV : validateModel M D with
    | ok V =>
      have hsome := validateModel_requires M D V hV (f, mf) hmemM habs
      rw [hdflt] at hsome
      simp at hsome
    | error msg =>
      constructor
      · simp [validate_data, hM, hV, VResult.isOk]
      · intro _
        simp [validate_data, hM, hV, VResult.isValueError]

/-- Witness for C5: the required integer field is absent. -/
theorem claim_C5_witness :
    (validate_data intFieldSchema []).isOk = false ∧
    (excOk (create_model_from_schema intFieldSchema) = true →
      (validate_data intFieldSchema []).isValueError = true) :=
  claim_C5_required_missing_fails intFieldSchema [] "n"
    { type := "integer", required := true } rfl
    (List.mem_cons_self _ _) rfl rfl rfl

/-! ## Claim C1 (amended): well-typed documents validate, projected to the schema -/

/-- **C1** (amended): for a valid schema whose runtime model builds (no
date-typed fields — those crash model creation), and a document that
supplies every required field and whose supplied *declared* fields are
all correctly typed, `validate_data` succeeds and every key of the
output is a declared field name; undeclared keys of `D` are dropped. -/
theorem claim_C1_amended (S : SchemaDefn) (D : PyDict)
    (M : List (String × ModelField))
    (hv : validSchema S = true)
    (hM : create_model_from_schema S = .ok M)
    (hreq : suppliesRequired S D = true)
    (hwt : declaredSuppliedWellTyped S D = true) :
    ∃ V, validate_data S D = .ok V ∧
      ∀ k ∈ V.map Prod.fst, k ∈ S.fields.map Prod.fst := by
  obtain ⟨hkeys, hback, hfwd⟩ :=
    create_model_spec S M hM (valid_fields_build S hv)
  have hob : ∀ p ∈ M, (∃ v w, dget D p.1 = some v ∧ validateAnn p.2.ann v = .ok w) ∨
      (dget D p.1 = none ∧ p.2.dflt.isSome) := by
    intro p hp
    obtain ⟨fd, hfdmem, hbf⟩ := hback p hp
    cases hg : dget D p.1 with
    | some v =>
      left
      have hwt' : (match dget D p.1 with
          | some v => wellTypedField fd v
          | none => true) = true := List.all_eq_true.1 hwt (p.1, fd) hfdmem
      simp only [hg] at hwt'
      have hmatch : valueMatchesAnn p.2.ann v = true := by
        simpa only [wellTypedField, hbf] using hwt'
      exact ⟨v, v, rfl, validateAnn_of_matches p.2.ann v hmatch⟩
    | none =>
      right
      refine ⟨rfl, ?_⟩
      have hrq : (!fd.required || (match dget D p.1 with
          | some v => wellTypedField fd v
          | none => false)) = true := List.all_eq_true.1 hreq (p.1, fd) hfdmem
      simp only [hg] at hrq
      rw [buildField_dflt fd p.2 hbf]
      unfold fieldDefault
      cases hdef : fd.default with
      | some d => simp
      | none =>
        cases hreqb : fd.required with
        | false => simp
        | true => rw [hreqb] at hrq; simp at hrq
  obtain ⟨V, hV, hkeysV⟩ := validateModel_ok_of M D hob
  refine ⟨V, ?_, ?_⟩
  · simp [validate_data, hM, hV]
  · intro k hk
    rw [hkeysV, hkeys] at hk
    exact hk

/-- Witness for C1 (amended): required field supplied well-typed,
optional field absent, undeclared key present. -/
theorem claim_C1_amended_witness :
    ∃ V, validate_data twoIntSchema [("a", .pint 2), ("junk", .pstr "x")] = .ok V ∧
      ∀ k ∈ V.map Prod.fst, k ∈ twoIntSchema.fields.map Prod.fst :=
  claim_C1_amended twoIntSchema [("a", .pint 2), ("junk", .pstr "x")]
    [("a", { ann := .pyInt, dflt := none }),
     ("b", { ann := .pyOptional .pyInt, dflt := some .pnone })]
    rfl rfl rfl rfl

/-! ## Claim C4 (amended): per-field content of a validated document -/

/-- A schema mixing a required field, an optional field without default,
and an optional field with a declared default. -/
def mixedSchema : SchemaDefn :=
  { name := "Mixed",
    fields := [("a", { type := "integer", required := true }),
               ("nick", { type := "string" }),
               ("n", { type := "integer", required := false,
                       default := some (.pint 7) })] }

/-- **C4** (amended): when `validate_data` succeeds, the output holds,
for each declared field: the validated supplied value when the field is
present in `D`; the field's declared default when absent; and — amended
against the claim's "omitted entirely" — the value `None` (the key *is*
present) when the field is absent, optional, and without default. -/
theorem claim_C4_amended (S : SchemaDefn) (D V : PyDict)
    (hv : validSchema S = true)
    (hnd : (S.fields.map Prod.fst).Nodup)
    (hok : validate_data S D = .ok V) :
    ∀ p ∈ S.fields, ∃ mf, buildField p.2 = some (.ok mf) ∧
      (∀ v, dget D p.1 = some v →
        ∃ w, validateAnn mf.ann v = .ok w ∧ dget V p.1 = some w) ∧
      (∀ d, dget D p.1 = none → p.2.default = some d → dget V p.1 = some d) ∧
      (dget D p.1 = none → p.2.default = none → p.2.required = false →
        dget V p.1 = some .pnone) := by
  unfold validate_data at hok
  cases hM : create_model_from_schema S with
  | error e => simp only [hM] at hok; cases hok
  | ok M =>
    simp only [hM] at hok
    cases hVM : validateModel M D with
    | error msg => simp only [hVM] at hok; cases hok
    | ok V₀ =>
      simp only [hVM] at hok
      cases hok
      obtain ⟨hkeys, hback, hfwd⟩ :=
        create_model_spec S M hM (valid_fields_build S hv)
      have hndM : (M.map Prod.fst).Nodup := by rw [hkeys]; exact hnd
      intro p hp
      obtain ⟨mf, hbf, hmemM⟩ := hfwd p hp
      have hlook := validateModel_lookup M D V hVM hndM (p.1, mf) hmemM
      have hdflt : mf.dflt = fieldDefault p.2 := buildField_dflt p.2 mf hbf
      refine ⟨mf, hbf, ?_, ?_, ?_⟩
      · intro v hv'
        exact hlook.1 v hv'
      · intro d hn hdef
        obtain ⟨d₀, hd₀, hvlook⟩ := hlook.2 hn
        rw [hdflt] at hd₀
        unfold fieldDefault at hd₀
        rw [hdef] at hd₀
        cases hd₀
        exact hvlook
      · intro hn hdef hreq
        obtain ⟨d₀, hd₀, hvlook⟩ := hlook.2 hn
        rw [hdflt] at hd₀
        unfold fieldDefault at hd₀
        rw [hdef, hreq] at hd₀
        cases hd₀
        exact hvlook

/-- Witness for C4 (amended) on `mixedSchema`: `a` supplied (validated
value stored), `n` absent with default 7 (default stored), `nick`
absent without default (stored as `None`). -/
theorem claim_C4_amended_witness :
    (∃ mf, buildField { type := "integer", required := true } = some (.ok mf) ∧
      ∃ w, validateAnn mf.ann (.pint 5) = .ok w ∧
        dget [("a", .pint 5), ("nick", .pnone), ("n", .pint 7)] "a" = some w) ∧
    dget [("a", .pint 5), ("nick", .pnone), ("n", .pint 7)] "n" = some (.pint 7) ∧
    dget [("a", .pint 5), ("nick", .pnone), ("n", .pint 7)] "nick" = some .pnone := by
  have H := claim_C4_amended mixedSchema [("a", .pint 5), ("junk", .pstr "x")]
    [("a", .pint 5), ("nick", .pnone), ("n", .pint 7)] rfl (by decide) rfl
  refine ⟨?_, ?_, ?_⟩
  · obtain ⟨mf, hbf, hsup, _, _⟩ := H ("a", { type := "integer", required := true })
      (List.mem_cons_self _ _)
    obtain ⟨w, hw, hl⟩ := hsup (.pint 5) rfl
    exact ⟨mf, hbf, w, hw, hl⟩
  · obtain ⟨mf, hbf, _, hdef, _⟩ := H
      ("n", { type := "integer", required := false, default := some (.pint 7) })
      (by simp [mixedSchema])
    exact hdef (.pint 7) rfl rfl
  · obtain ⟨mf, hbf, _, _, hnone⟩ := H ("nick", { type := "string" })
      (by simp [mixedSchema])
    exact hnone rfl rfl rfl

/-! ## Claim C6 (amended): idempotence under revalidating defaults -/

/-- Idempotence of the model run, under unique field names and defaults
that revalidate to themselves. -/
theorem validateModel_idem : ∀ (M : List (String × ModelField)),
    (M.map Prod.fst).Nodup →
    (∀ p ∈ M, ∀ d, p.2.dflt = some d → validateAnn p.2.ann d = .ok d) →
    ∀ D V, validateModel M D = .ok V → validateModel M V = .ok V := by
  intro M
  induction M with
  | nil =>
    intro _ _ D V h
    cases h
    rfl
  | cons q rest ih =>
    obtain ⟨f, mf⟩ := q
    intro hnd hfix D V h
    rw [List.map_cons, List.nodup_cons] at hnd
    obtain ⟨hfnot, hndrest⟩ := hnd
    have ihr := ih hndrest (fun p hp d hd => hfix p (List.mem_cons_of_mem _ hp) d hd)
    unfold validateModel at h
    cases hg : dget D f with
    | some v =>
      simp only [hg] at h
      cases hw : validateAnn mf.ann v with
      | error e => rw [hw, exceptBind_error] at h; cases h
      | ok w =>
        rw [hw, exceptBind_ok] at h
        cases hrest : validateModel rest D with
        | error e => rw [hrest, exceptBind_error] at h; cases h
        | ok tl =>
          rw [hrest, exceptBind_ok] at h
          cases h
          have hgV : dget ((f, w) :: tl) f = some w := by simp [dget]
          have hcongr : validateModel rest ((f, w) :: tl) = validateModel rest tl := by
            apply validateModel_congr
            intro p hp
            have hne : ¬ (f = p.1) := by
              intro he
              refine hfnot ?_
              rw [he]
              exact List.mem_map.2 ⟨p, hp, rfl⟩
            simp [dget, hne]
          simp only [validateModel, hgV, validateAnn_fix mf.ann v w hw, exceptBind_ok,
            hcongr, ihr D tl hrest, exceptBind_ok]
    | none =>
      simp only [hg] at h
      cases hd : mf.dflt with
      | none => simp only [hd] at h; cases h
      | some d =>
        simp only [hd] at h
        cases hrest : validateModel rest D with
        | error e => rw [hrest, exceptBind_error] at h; cases h
        | ok tl =>
          rw [hrest, exceptBind_ok] at h
          cases h
          have hgV : dget ((f, d) :: tl) f = some d := by simp [dget]
          have hdok : validateAnn mf.ann d = .ok d :=
            hfix (f, mf) (List.mem_cons_self _ _) d hd
          have hcongr : validateModel rest ((f, d) :: tl) = validateModel rest tl := by
            apply validateModel_congr
            intro p hp
            have hne : ¬ (f = p.1) := by
              intro he
              refine hfnot ?_
              rw [he]
              exact List.mem_map.2 ⟨p, hp, rfl⟩
            simp [dget, hne]
          simp only [validateModel, hgV, hdok, exceptBind_ok, hcongr,
            ihr D tl hrest, exceptBind_ok]

/-- **C6** (amended): `validate_data` is idempotent *provided* every
declared default revalidates to itself under its field's validator (in
particular when defaults already have the declared type).  Pydantic v1
does not validate defaults on the first pass, so without this proviso
the second pass can coerce or reject the default (see the
counterexample). -/
theorem claim_C6_amended (S : SchemaDefn) (D V : PyDict)
    (M : List (String × ModelField))
    (hnd : (S.fields.map Prod.fst).Nodup)
    (hM : create_model_from_schema S = .ok M)
    (hfix : ∀ p ∈ M, ∀ d, p.2.dflt = some d → validateAnn p.2.ann d = .ok d)
    (hok : validate_data S D = .ok V) :
    validate_data S V = .ok V := by
  have hVM : validateModel M D = .ok V := by
    unfold validate_data at hok
    simp only [hM] at hok
    cases hV' : validateModel M D with
    | error e => simp only [hV'] at hok; cases hok
    | ok W => simp only [hV'] at hok; cases hok; rfl
  have hndM : (M.map Prod.fst).Nodup := by
    have hsub : List.Sublist (M.map Prod.fst) (S.fields.map Prod.fst) := by
      unfold create_model_from_schema at hM
      cases hE : buildEntries S.fields with
      | error e => rw [hE] at hM; cases hM
      | ok E =>
        rw [hE, exceptBind_ok] at hM
        obtain ⟨hME, _⟩ := checkAnnotations_ok E M hM
        subst hME
        exact buildEntries_keys_sublist S.fields M hE
    exact hnd.sublist hsub
  have hidem := validateModel_idem M hndM hfix D V hVM
  simp [validate_data, hM, hidem]

/-- Witness for C6 (amended) on `mixedSchema` (its default, `7`, is of
the declared type, so it is a fixpoint). -/
theorem claim_C6_amended_witness :
    validate_data mixedSchema [("a", .pint 5), ("nick", .pnone), ("n", .pint 7)] =
      .ok [("a", .pint 5), ("nick", .pnone), ("n", .pint 7)] :=
  claim_C6_amended mixedSchema [("a", .pint 5)]
    [("a", .pint 5), ("nick", .pnone), ("n", .pint 7)]
    [("a", { ann := .pyInt, dflt := none }),
     ("nick", { ann := .pyOptional .pyStr, dflt := some .pnone }),
     ("n", { ann := .pyOptional .pyInt, dflt := some (.pint 7) })]
    (by decide) rfl
    (by
      intro p hp d hd
      simp only [List.mem_cons, List.not_mem_nil, or_false] at hp
      rcases hp with rfl | rfl | rfl
      · cases hd
      · cases hd; rfl
      · cases hd; rfl)
    rfl
